import Mathlib

/-!
# TEA5767 FM receiver: driver, button threads and tuning state

A shallow embedding of `src/lib/tea5767_i2c_driver.c`, `src/lib/i2c_bbb.c` and the button
threads of `src/main.c`.

* C `float` / `double` values are rationals; every operation that rounds in C is followed by an
  explicit rounding (`f32`, `f64`: IEEE-754 binary32 / binary64, round to nearest, ties to even).
* Machine integers are `ℕ` / `ℤ` with explicit wrap-around (`toInt8`, `toUInt8`, `toWORD`).
* The file-scope variables of the driver are the record `Driver`, the globals of `main.c` are
  the record `Globals`, the bus descriptor is the record `I2CBus`; functions pass them explicitly.
* What the operating system answers (the count reported by `write(2)`, the value returned by
  `GPIO_ReadValue`) is an explicit argument.
-/

namespace FMRadio

/-! ## Binary floating point -/

/-- Nearest integer to the fraction `n / d` (for `0 < d`), ties going to the even neighbour. -/
def roundHalfEven (n d : ℕ) : ℕ :=
  let q := n / d
  let r := n % d
  if 2 * r < d then q else if d < 2 * r then q + 1 else if q % 2 = 0 then q else q + 1

/-- Position of the highest set bit of `n` (and `0` for `n < 2`); `fuel` bounds the recursion and
any `fuel ≥ n` is enough. -/
def log2Fuel : ℕ → ℕ → ℕ
  | 0, _ => 0
  | fuel + 1, n => if n < 2 then 0 else log2Fuel fuel (n / 2) + 1

/-- The binary exponent of the positive fraction `n / d`: the `e` with `2 ^ e ≤ n / d < 2 ^ (e + 1)`. -/
def ilog2 (n d : ℕ) : ℤ :=
  let e0 : ℤ := (log2Fuel n n : ℤ) - (log2Fuel d d : ℤ)
  if (if 0 ≤ e0 then d * 2 ^ e0.toNat ≤ n else d ≤ n * 2 ^ (-e0).toNat) then e0 else e0 - 1

/-- Rounding of a rational to the binary floating-point format with a `p`-bit significand and least
normal exponent `emin` (round to nearest, ties to even, gradual underflow).  Overflow to infinity
is not represented: every value of this program is far below the largest finite number. -/
def roundBinary (p : ℕ) (emin : ℤ) (x : ℚ) : ℚ :=
  if x = 0 then 0 else
  let n := x.num.natAbs
  let d := x.den
  let e := max (ilog2 n d) emin
  let k := e - ((p : ℤ) - 1)
  let m := if 0 ≤ k then roundHalfEven n (d * 2 ^ k.toNat) else roundHalfEven (n * 2 ^ (-k).toNat) d
  let y : ℚ := if 0 ≤ k then ((m * 2 ^ k.toNat : ℕ) : ℚ) else (m : ℚ) / ((2 ^ (-k).toNat : ℕ) : ℚ)
  if x < 0 then -y else y

/-- Rounding to C `float` (IEEE-754 binary32). -/
def f32 : ℚ → ℚ := roundBinary 24 (-126)

/-- Rounding to C `double` (IEEE-754 binary64). -/
def f64 : ℚ → ℚ := roundBinary 53 (-1022)

/-- How the floating-point objects of `main.c` are interpreted: `flt` is applied whenever a value
is stored into a `float`, `dbl` to every `double` constant and `double` result. -/
structure FloatSem where
  flt : ℚ → ℚ
  dbl : ℚ → ℚ

/-- The arithmetic the compiled program performs. -/
def ieee : FloatSem := ⟨f32, f64⟩

/-- Frequencies taken as exact decimals: no rounding anywhere. -/
def exactDecimal : FloatSem := ⟨id, id⟩

/-! ## Machine integers -/

/-- Conversion of an `int` to `int8_t`. -/
def toInt8 (x : ℤ) : ℤ := (x + 128) % 256 - 128

/-- Conversion of an `int` to `uint8_t`. -/
def toUInt8 (x : ℤ) : ℤ := x % 256

/-- Conversion of a `float` to `WORD` (`uint16_t`): the fractional part is discarded. -/
def toWORD (x : ℚ) : ℕ := (if 0 ≤ x then ⌊x⌋ else -⌊-x⌋).toNat % 65536

/-! ## Constants of `tea5767_i2c_driver.h` -/

def BUFFER_SIZE : ℕ := 5
def BYTE_1 : ℕ := 0
def BYTE_2 : ℕ := 1
def BYTE_3 : ℕ := 2
def BYTE_4 : ℕ := 3
def BYTE_5 : ℕ := 4
def PLL_MASK_BYTE_1 : ℕ := 0x3F
def PLL_MASK_BYTE_2 : ℕ := 0xFF
def HI_INJECTION : ℕ := 0x10
def XTAL_32768HZ : ℕ := 0x10
def DTC_75US : ℕ := 0x40
def MUTE_MASK : ℕ := 0x80
def UNMUTE_MASK : ℕ := 0x7F
def STANDBY_ON_MASK : ℕ := 0x40
def STANDBY_OFF_MASK : ℕ := 0xBF
def INTERMEDIATE_FREQ : ℕ := 225000
def REF_FREQ_32768HZ : ℕ := 32768
def REF_FREQ_OTHER : ℕ := 50000
def DEFAULT_FREQ : ℚ := 94.7

/-! ## `i2c_bbb.c` -/

/-- The bus descriptor as the process sees it: whether it is still open, and every payload that
was handed to `write(2)` on it (oldest first). -/
structure I2CBus where
  isOpen : Bool
  written : List (List ℕ)
deriving DecidableEq, Repr

/-- The count reported by `write(2)`: `accepted` (what the device side takes, `-1` for an error)
on an open descriptor, `-1` on a closed one. -/
def sysWrite (bus : I2CBus) (accepted : ℤ) : ℤ := if bus.isOpen then accepted else -1

/-- Embedding of `I2C_Close`: the descriptor is closed. -/
def I2C_Close (bus : I2CBus) : I2CBus := { bus with isOpen := false }

/-- Embedding of `I2C_WriteRegisters`: one `write(2)` of the first `num_of_bytes` bytes of
`p_data`; a count other than `num_of_bytes` closes the bus and returns `-1`, otherwise the count
is returned. -/
def I2C_WriteRegisters (bus : I2CBus) (accepted : ℤ) (p_data : List ℕ) (num_of_bytes : ℕ) :
    ℤ × I2CBus :=
  let ret := toInt8 (sysWrite bus accepted)
  let bus1 := { bus with written := bus.written ++ [p_data.take num_of_bytes] }
  if ret = -1 ∨ ret ≠ (num_of_bytes : ℤ) then (-1, I2C_Close bus1) else (ret, bus1)

/-- Embedding of `I2C_ConnectToDevice`: `ioctlRet` is what `ioctl(I2C_SLAVE)` answers; on failure
the bus is closed. -/
def I2C_ConnectToDevice (bus : I2CBus) (ioctlRet : ℤ) : ℤ × I2CBus :=
  if ioctlRet < 0 then (-1, I2C_Close bus) else (0, bus)

/-! ## `tea5767_i2c_driver.c` -/

/-- The file-scope variables of the driver. -/
structure Driver where
  writeBuffer : List ℕ
  mute_state : ℕ
  standby_mode : ℕ
  clock_frequency : ℕ
deriving DecidableEq, Repr

/-- The initial values of the file-scope variables. -/
def Driver.init : Driver :=
  { writeBuffer := [0, 0, 0, 0, 0], mute_state := 0, standby_mode := 0, clock_frequency := 32768 }

/-- The reference frequency `getFrequency` selects for a clock frequency. -/
def refFreq (clock_frequency : ℕ) : ℕ :=
  if clock_frequency = 32768 then REF_FREQ_32768HZ else REF_FREQ_OTHER

/-- Embedding of `getFrequency`: the PLL word.  The operands `1000000`, `INTERMEDIATE_FREQ`, `4` and
`ref_freq` are converted to `float` (exactly), every product, sum and quotient is a `float`
operation and rounds, and the `return` converts the `float` to `WORD`. -/
def getFrequency (clock_frequency : ℕ) (tuning_freq : ℚ) : ℕ :=
  let ref_freq : ℕ := refFreq clock_frequency
  toWORD (f32 (f32 (4 * f32 (f32 (tuning_freq * 1000000) + (INTERMEDIATE_FREQ : ℚ))) / (ref_freq : ℚ)))

/-- The return value of the five operations, from the value of `I2C_WriteRegisters`. -/
def statusOf (r : ℤ) : ℤ := if r < 0 then -1 else 0

/-- Embedding of `TEA5767_Mute`. -/
def TEA5767_Mute (drv : Driver) (bus : I2CBus) (accepted : ℤ) : ℤ × Driver × I2CBus :=
  let drv1 := { drv with
    mute_state := 1,
    writeBuffer := drv.writeBuffer.set BYTE_1 ((drv.writeBuffer.getD BYTE_1 0 ||| MUTE_MASK) % 256) }
  let w := I2C_WriteRegisters bus accepted drv1.writeBuffer BUFFER_SIZE
  (statusOf w.1, drv1, w.2)

/-- Embedding of `TEA5767_Unmute`. -/
def TEA5767_Unmute (drv : Driver) (bus : I2CBus) (accepted : ℤ) : ℤ × Driver × I2CBus :=
  let drv1 := { drv with
    mute_state := 0,
    writeBuffer := drv.writeBuffer.set BYTE_1 (drv.writeBuffer.getD BYTE_1 0 &&& UNMUTE_MASK) }
  let w := I2C_WriteRegisters bus accepted drv1.writeBuffer BUFFER_SIZE
  (statusOf w.1, drv1, w.2)

/-- Embedding of `TEA5767_StandbyON`. -/
def TEA5767_StandbyON (drv : Driver) (bus : I2CBus) (accepted : ℤ) : ℤ × Driver × I2CBus :=
  let drv1 := { drv with
    standby_mode := 1,
    writeBuffer := drv.writeBuffer.set BYTE_4 ((drv.writeBuffer.getD BYTE_4 0 ||| STANDBY_ON_MASK) % 256) }
  let w := I2C_WriteRegisters bus accepted drv1.writeBuffer BUFFER_SIZE
  (statusOf w.1, drv1, w.2)

/-- Embedding of `TEA5767_StandbyOFF`. -/
def TEA5767_StandbyOFF (drv : Driver) (bus : I2CBus) (accepted : ℤ) : ℤ × Driver × I2CBus :=
  let drv1 := { drv with
    standby_mode := 0,
    writeBuffer := drv.writeBuffer.set BYTE_4 (drv.writeBuffer.getD BYTE_4 0 &&& STANDBY_OFF_MASK) }
  let w := I2C_WriteRegisters bus accepted drv1.writeBuffer BUFFER_SIZE
  (statusOf w.1, drv1, w.2)

/-- Embedding of `TEA5767_SetFrequency`: the five assignments, the two flag checks (the mute
check ors `MUTE_MASK` into `writeBuffer[BYTE_2]`, as the source does), then the write. -/
def TEA5767_SetFrequency (drv : Driver) (bus : I2CBus) (accepted : ℤ) (tuning_freq : ℚ) :
    ℤ × Driver × I2CBus :=
  let PLL := getFrequency drv.clock_frequency tuning_freq
  let b1 := drv.writeBuffer.set BYTE_1 (((PLL >>> 8) &&& PLL_MASK_BYTE_1) % 256)
  let b2 := b1.set BYTE_2 ((PLL &&& PLL_MASK_BYTE_2) % 256)
  let b3 := b2.set BYTE_3 HI_INJECTION
  let b4 := b3.set BYTE_4 XTAL_32768HZ
  let b5 := b4.set BYTE_5 DTC_75US
  let b6 := if drv.mute_state ≠ 0 then b5.set BYTE_2 ((b5.getD BYTE_2 0 ||| MUTE_MASK) % 256) else b5
  let b7 := if drv.standby_mode ≠ 0 then b6.set BYTE_4 ((b6.getD BYTE_4 0 ||| STANDBY_ON_MASK) % 256)
    else b6
  let drv1 := { drv with writeBuffer := b7 }
  let w := I2C_WriteRegisters bus accepted drv1.writeBuffer BUFFER_SIZE
  (statusOf w.1, drv1, w.2)

/-- The call sequence `TEA5767_SetFrequency(f1); TEA5767_Mute(); TEA5767_SetFrequency(f2)` from
the initial driver state on an open bus, each write accepted in full; the results of the three
calls in order. -/
def tuneMuteTune (f1 f2 : ℚ) :
    (ℤ × Driver × I2CBus) × (ℤ × Driver × I2CBus) × (ℤ × Driver × I2CBus) :=
  let s1 := TEA5767_SetFrequency Driver.init ⟨true, []⟩ 5 f1
  let s2 := TEA5767_Mute s1.2.1 s1.2.2 5
  let s3 := TEA5767_SetFrequency s2.2.1 s2.2.2 5 f2
  (s1, s2, s3)

/-- Embedding of `TEA5767_Init`: connect, then tune to the literal `94.73` (a `double` constant
converted to the `float` parameter). -/
def TEA5767_Init (drv : Driver) (bus : I2CBus) (ioctlRet accepted : ℤ) : ℤ × Driver × I2CBus :=
  let c := I2C_ConnectToDevice bus ioctlRet
  if c.1 < 0 then (-1, drv, c.2)
  else
    let s := TEA5767_SetFrequency drv c.2 accepted (f32 (f64 94.73))
    if s.1 < 0 then (-1, s.2.1, s.2.2) else (0, s.2.1, s.2.2)

/-! ## `main.c`: the shared tuning state -/

/-- The command flag `Flag` of `main.c`. -/
inductive Flag where
  | AUDIO
  | TUNE
  | WAIT
deriving DecidableEq, Repr

/-- The global variables of `main.c`. -/
structure Globals where
  g_frequency : ℚ
  g_audio : ℕ
  g_flag : Flag
  g_lcd_update : ℕ
  g_digit : ℕ
deriving DecidableEq, Repr

/-- The initial values of the globals; `g_frequency` is the `double` constant `DEFAULT_FREQ`
stored into a `float`. -/
def Globals.init (sem : FloatSem) : Globals :=
  { g_frequency := sem.flt (sem.dbl DEFAULT_FREQ), g_audio := 1, g_flag := Flag.WAIT,
    g_lcd_update := 0, g_digit := 0 }

/-! ### What each thread does on a completed press

The body of the `if (!isPressed && lastState)` branch of each button thread. -/

/-- The press-completed branch of `audioButtonThreadFunc`. -/
def audioButtonPress (g : Globals) : Globals :=
  { g with g_audio := if g.g_audio = 1 then 0 else 1, g_flag := Flag.AUDIO }

/-- The press-completed branch of `toggleDigitButtonThreadFunc`. -/
def toggleDigitButtonPress (g : Globals) : Globals :=
  { g with g_digit := if g.g_digit = 1 then 0 else 1 }

/-- The press-completed branch of `backButtonThreadFunc`: the comparison and the subtraction are
carried out in `double`, the result is stored into the `float` global. -/
def backButtonPress (sem : FloatSem) (g : Globals) : Globals :=
  if g.g_digit = 1 then
    if g.g_frequency > sem.dbl 88.4 then
      { g with g_frequency := sem.flt (sem.dbl (g.g_frequency - sem.dbl 1.0)) }
    else g
  else
    if g.g_frequency > sem.dbl 87.5 then
      { g with g_frequency := sem.flt (sem.dbl (g.g_frequency - sem.dbl 0.1)) }
    else g

/-- The press-completed branch of `forwardButtonThreadFunc`. -/
def forwardButtonPress (sem : FloatSem) (g : Globals) : Globals :=
  if g.g_digit = 1 then
    if g.g_frequency < sem.dbl 107.0 then
      { g with g_frequency := sem.flt (sem.dbl (g.g_frequency + sem.dbl 1.0)) }
    else g
  else
    if g.g_frequency < sem.dbl 107.9 then
      { g with g_frequency := sem.flt (sem.dbl (g.g_frequency + sem.dbl 0.1)) }
    else g

/-- The press-completed branch of `tuneButtonThreadFunc`. -/
def tuneButtonPress (g : Globals) : Globals :=
  { g with g_flag := Flag.TUNE }

/-! ### The polling loops -/

/-- The locals of a button thread, with two observation fields: `tick` counts the completed loop
iterations and `fired` lists the ticks on which the press-completed branch ran. -/
structure ButtonThread where
  lastState : ℤ
  exited : Bool
  tick : ℕ
  fired : List ℕ
deriving DecidableEq, Repr

/-- The locals at thread start: `lastState = 0`. -/
def ButtonThread.init : ButtonThread :=
  { lastState := 0, exited := false, tick := 0, fired := [] }

/-- One iteration of the `while (1)` loop of a button thread.  `store` is the conversion into the
declared type of `isPressed`, `rd` the value returned by `GPIO_ReadValue` on this tick, `press`
the press-completed branch.  After `return NULL` nothing happens any more. -/
def buttonPoll (store : ℤ → ℤ) (press : Globals → Globals) (st : ButtonThread × Globals) (rd : ℤ) :
    ButtonThread × Globals :=
  if st.1.exited then st
  else
    let isPressed := store rd
    if isPressed < 0 then ({ st.1 with exited := true }, st.2)
    else if isPressed = 0 ∧ st.1.lastState ≠ 0 then
      ({ lastState := isPressed, exited := false, tick := st.1.tick + 1,
         fired := st.1.fired ++ [st.1.tick] }, press st.2)
    else
      ({ lastState := isPressed, exited := false, tick := st.1.tick + 1, fired := st.1.fired }, st.2)

/-- Embedding of `audioButtonThreadFunc` over the successive values of `GPIO_ReadValue`;
`isPressed` is an `int8_t` here. -/
def audioButtonThreadFunc (reads : List ℤ) (g : Globals) : ButtonThread × Globals :=
  reads.foldl (buttonPoll toInt8 audioButtonPress) (ButtonThread.init, g)

/-- Embedding of `toggleDigitButtonThreadFunc`; `isPressed` is a `uint8_t`. -/
def toggleDigitButtonThreadFunc (reads : List ℤ) (g : Globals) : ButtonThread × Globals :=
  reads.foldl (buttonPoll toUInt8 toggleDigitButtonPress) (ButtonThread.init, g)

/-- Embedding of `backButtonThreadFunc`; `isPressed` is a `uint8_t`. -/
def backButtonThreadFunc (sem : FloatSem) (reads : List ℤ) (g : Globals) : ButtonThread × Globals :=
  reads.foldl (buttonPoll toUInt8 (backButtonPress sem)) (ButtonThread.init, g)

/-- Embedding of `forwardButtonThreadFunc`; `isPressed` is a `uint8_t`. -/
def forwardButtonThreadFunc (sem : FloatSem) (reads : List ℤ) (g : Globals) :
    ButtonThread × Globals :=
  reads.foldl (buttonPoll toUInt8 (forwardButtonPress sem)) (ButtonThread.init, g)

/-- Embedding of `tuneButtonThreadFunc`; `isPressed` is a `uint8_t`. -/
def tuneButtonThreadFunc (reads : List ℤ) (g : Globals) : ButtonThread × Globals :=
  reads.foldl (buttonPoll toUInt8 tuneButtonPress) (ButtonThread.init, g)

/-- The five physical buttons. -/
inductive Button where
  | audioButton
  | toggleDigit
  | back
  | forward
  | tune
deriving DecidableEq, Repr

/-- The thread function serving a button. -/
def Button.threadFunc (sem : FloatSem) : Button → List ℤ → Globals → ButtonThread × Globals
  | .audioButton => audioButtonThreadFunc
  | .toggleDigit => toggleDigitButtonThreadFunc
  | .back => backButtonThreadFunc sem
  | .forward => forwardButtonThreadFunc sem
  | .tune => tuneButtonThreadFunc

/-- The conversion into the declared type of `isPressed` in the thread of a button. -/
def Button.store : Button → ℤ → ℤ
  | .audioButton => toInt8
  | _ => toUInt8

/-- The press-completed branch of the thread of a button. -/
def Button.press (sem : FloatSem) : Button → Globals → Globals
  | .audioButton => audioButtonPress
  | .toggleDigit => toggleDigitButtonPress
  | .back => backButtonPress sem
  | .forward => forwardButtonPress sem
  | .tune => tuneButtonPress

/-! ### Sequences of staging presses -/

/-- The three staging buttons. -/
inductive StagingPress where
  | decrease
  | increase
  | digitSelect
deriving DecidableEq, Repr

/-- The effect of one completed press of a staging button on the globals. -/
def StagingPress.apply (sem : FloatSem) : StagingPress → Globals → Globals
  | .decrease => backButtonPress sem
  | .increase => forwardButtonPress sem
  | .digitSelect => toggleDigitButtonPress

/-- The globals after a sequence of completed presses, first press first. -/
def runPresses (sem : FloatSem) (presses : List StagingPress) (g : Globals) : Globals :=
  presses.foldl (fun acc p => p.apply sem acc) g

/-- The staged frequency is a multiple of 0.1 MHz inside the band. -/
def OnBandGrid (g : Globals) : Prop :=
  ∃ k : ℤ, g.g_frequency = (k : ℚ) / 10 ∧ 875 ≤ k ∧ k ≤ 1080

/-! ## `main.c`: the dispatcher and the display -/

/-- The five operations of the driver that write the register image. -/
inductive DriverOp where
  | setFrequency (tuning_freq : ℚ)
  | mute
  | unmute
  | standbyOn
  | standbyOff
deriving DecidableEq, Repr

/-- The driver function an operation stands for. -/
def DriverOp.run : DriverOp → Driver → I2CBus → ℤ → ℤ × Driver × I2CBus
  | .setFrequency f, drv, bus, accepted => TEA5767_SetFrequency drv bus accepted f
  | .mute, drv, bus, accepted => TEA5767_Mute drv bus accepted
  | .unmute, drv, bus, accepted => TEA5767_Unmute drv bus accepted
  | .standbyOn, drv, bus, accepted => TEA5767_StandbyON drv bus accepted
  | .standbyOff, drv, bus, accepted => TEA5767_StandbyOFF drv bus accepted

/-- The mutexes of `main.c`. -/
inductive Mutex where
  | freq_mutex
  | audio_mutex
  | digit_mutex
  | flag_mutex
  | lcd_update_mutex
deriving DecidableEq, Repr

/-- What one pass of the dispatcher loop does, in program order: mutex operations, the call of a
driver operation (which performs the transport write), the assignments `g_flag = WAIT` and
`g_lcd_update = 1`, and the signal to the display thread. -/
inductive ThreadEvent where
  | lock (m : Mutex)
  | unlock (m : Mutex)
  | deviceCall
  | clearFlag
  | setLcdUpdate
  | signalDisplay
deriving DecidableEq, Repr

/-- The state after one pass of the dispatcher loop: the globals, the driver variables, the bus,
the value the driver operation returned (only used for the diagnostic) and the events of the
pass. -/
structure Dispatch where
  g : Globals
  drv : Driver
  bus : I2CBus
  status : ℤ
  trace : List ThreadEvent
deriving DecidableEq, Repr

/-- One pass of the `while (1)` loop of `fmThreadFunc`.  With `g_flag = WAIT` the thread stays in
`pthread_cond_wait` and the pass does not take place (`none`); the `default` branch of the
`switch` is therefore never taken.  The driver calls are made between the lock and the unlock of
the state mutex, inside the section guarded by `flag_mutex`, as in the source. -/
def fmThreadIteration (g : Globals) (drv : Driver) (bus : I2CBus) (accepted : ℤ) :
    Option Dispatch :=
  match g.g_flag with
  | Flag.WAIT => none
  | Flag.TUNE =>
    let r := TEA5767_SetFrequency drv bus accepted g.g_frequency
    some { g := { g with g_flag := Flag.WAIT, g_lcd_update := 1 }, drv := r.2.1, bus := r.2.2,
           status := r.1,
           trace := [.lock .flag_mutex, .lock .freq_mutex, .deviceCall, .unlock .freq_mutex,
             .clearFlag, .unlock .flag_mutex, .lock .lcd_update_mutex, .setLcdUpdate,
             .unlock .lcd_update_mutex, .signalDisplay] }
  | Flag.AUDIO =>
    let r := if g.g_audio = 0 then TEA5767_Mute drv bus accepted
      else TEA5767_Unmute drv bus accepted
    some { g := { g with g_flag := Flag.WAIT, g_lcd_update := 1 }, drv := r.2.1, bus := r.2.2,
           status := r.1,
           trace := [.lock .flag_mutex, .lock .audio_mutex, .deviceCall, .unlock .audio_mutex,
             .clearFlag, .unlock .flag_mutex, .lock .lcd_update_mutex, .setLcdUpdate,
             .unlock .lcd_update_mutex, .signalDisplay] }

/-- The audio text `displayThreadFunc` prints, `g_audio ? "ON" : "MUTED"`. -/
def displayAudioText (g : Globals) : String := if g.g_audio ≠ 0 then "ON" else "MUTED"

/-- The number of tenths `displayThreadFunc` prints for a non-negative `g_frequency` with the
format `%.1f`: the stored value rounded to one decimal. -/
def displayFrequencyTenths (g : Globals) : ℕ :=
  roundHalfEven (g.g_frequency.num.natAbs * 10) g.g_frequency.den

/-! ### Call sequences and scenarios -/

/-- The driver and the bus after the start of `fmThreadFunc`: the bus opened, `TEA5767_Init`
called with the `ioctl` succeeding and the write accepted in full. -/
def deviceAfterInit : ℤ × Driver × I2CBus := TEA5767_Init Driver.init ⟨true, []⟩ 0 5

/-- The call sequence `TEA5767_SetFrequency(f1); TEA5767_StandbyON(); TEA5767_SetFrequency(f2)`
(with `TEA5767_StandbyOFF` in the middle when `standby = false`) from the driver state `drv` on
the bus `bus`, the device accepting each write in full; the results of the three calls in
order. -/
def tuneStandbyTune (standby : Bool) (drv : Driver) (bus : I2CBus) (f1 f2 : ℚ) :
    (ℤ × Driver × I2CBus) × (ℤ × Driver × I2CBus) × (ℤ × Driver × I2CBus) :=
  let s1 := TEA5767_SetFrequency drv bus 5 f1
  let s2 := if standby then TEA5767_StandbyON s1.2.1 s1.2.2 5 else TEA5767_StandbyOFF s1.2.1 s1.2.2 5
  let s3 := TEA5767_SetFrequency s2.2.1 s2.2.2 5 f2
  (s1, s2, s3)

/-- Two calls of `TEA5767_SetFrequency(f)` in a row; the result of the second. -/
def tuneTwice (drv : Driver) (bus : I2CBus) (accepted1 accepted2 : ℤ) (f : ℚ) :
    ℤ × Driver × I2CBus :=
  let s1 := TEA5767_SetFrequency drv bus accepted1 f
  TEA5767_SetFrequency s1.2.1 s1.2.2 accepted2 f

/-- A driver operation followed by one pass of the dispatcher loop on what it left behind. -/
def dispatchAfter (op : DriverOp) (drv : Driver) (bus : I2CBus) (accepted1 : ℤ) (g : Globals)
    (accepted2 : ℤ) : Option Dispatch :=
  fmThreadIteration g (op.run drv bus accepted1).2.1 (op.run drv bus accepted1).2.2 accepted2

/-- The tune scenario: from the initial globals and the initialised device, three completed
presses of the increase button, one of the commit button, then one pass of the dispatcher with
the write accepted in full. -/
def tuneScenario (sem : FloatSem) : Option Dispatch :=
  let g3 := runPresses sem [.increase, .increase, .increase] (Globals.init sem)
  fmThreadIteration (tuneButtonPress g3) deviceAfterInit.2.1 deviceAfterInit.2.2 5

/-- The audio scenario: from the initial globals and the initialised device, a completed press of
the audio button, a pass of the dispatcher, a second press and a second pass, every write
accepted in full; the states after the first and after the second pass. -/
def audioScenario (sem : FloatSem) : Option (Dispatch × Dispatch) :=
  match fmThreadIteration (audioButtonPress (Globals.init sem)) deviceAfterInit.2.1
      deviceAfterInit.2.2 5 with
  | none => none
  | some d1 =>
    match fmThreadIteration (audioButtonPress d1.g) d1.drv d1.bus 5 with
    | none => none
    | some d2 => some (d1, d2)

/-- The 14-bit PLL word a register image carries: the low six bits of byte 0 followed by
byte 1. -/
def imagePLL (image : List ℕ) : ℕ := ((image.getD 0 0 &&& 0x3F) <<< 8) ||| image.getD 1 0

/-! ## Definitions that follow the words of the specification -/

/-- The PLL word as the specification words it: the quotient rounded to the nearest integer. -/
def specRoundedPLL (f : ℚ) (ref : ℕ) : ℤ := round (4 * (f * 1000000 + 225000) / (ref : ℚ))

/-- The inverse formula of the specification: the frequency in MHz a PLL word stands for. -/
def specDecodePLL (pll : ℕ) (ref : ℕ) : ℚ := ((pll : ℚ) * (ref : ℚ) / 4 - 225000) / 1000000

/-- The edge condition of the specification at tick `i` of the level sequence `s`: the level read
is released and the level before it was pressed, with the level before tick `0` taken as `0`. -/
def specEdgeAt (s : List ℤ) (i : ℕ) : Prop :=
  s.getD i 0 = 0 ∧ 0 < i ∧ s.getD (i - 1) 0 = 1

instance (s : List ℤ) (i : ℕ) : Decidable (specEdgeAt s i) :=
  inferInstanceAs (Decidable (s.getD i 0 = 0 ∧ 0 < i ∧ s.getD (i - 1) 0 = 1))

/-- The step of a frequency adjustment: `1.0` with the ones digit active, `0.1` otherwise. -/
def specStep (g_digit : ℕ) : ℚ := if g_digit = 1 then 1 else 1 / 10

/-! ### Locks held by the dispatcher -/

/-- The mutexes a thread holds after the events `tr`, when it held `held` before them (most
recently acquired first). -/
def heldAfter : List Mutex → List ThreadEvent → List Mutex
  | held, [] => held
  | held, .lock m :: tr => heldAfter (m :: held) tr
  | held, .unlock m :: tr => heldAfter (held.erase m) tr
  | held, _ :: tr => heldAfter held tr

/-- The mutexes held at the moment of the first driver call of a trace; `none` when the trace has
no driver call. -/
def heldAtDeviceCall (tr : List ThreadEvent) : Option (List Mutex) :=
  if tr.indexOf ThreadEvent.deviceCall < tr.length then
    some (heldAfter [] (tr.take (tr.indexOf ThreadEvent.deviceCall)))
  else none

/-- The state mutex of a pending command: `freq_mutex` for `TUNE`, `audio_mutex` otherwise. -/
def stateMutex (fl : Flag) : Mutex :=
  match fl with
  | Flag.TUNE => Mutex.freq_mutex
  | _ => Mutex.audio_mutex

/-! ## `main.c`: thread attributes -/

def HIGHER_PRIO : ℤ := 20
def LOWER_PRIO : ℤ := 50

/-- The scheduling policies a thread attribute can name. -/
inductive SchedPolicy where
  | SCHED_OTHER
  | SCHED_FIFO
  | SCHED_RR
deriving DecidableEq, Repr

/-- The scheduling part of a thread attribute object as `main` configures it: the priority passed
to `pthread_attr_setschedparam` and the policy passed to `pthread_attr_setschedpolicy`. -/
structure ThreadAttr where
  sched_priority : ℤ
  schedpolicy : SchedPolicy
deriving DecidableEq, Repr

/-- The attribute object `hAttr` of `main`. -/
def hAttr : ThreadAttr := { sched_priority := HIGHER_PRIO, schedpolicy := SchedPolicy.SCHED_FIFO }

/-- The attribute object `lAttr` of `main`. -/
def lAttr : ThreadAttr := { sched_priority := LOWER_PRIO, schedpolicy := SchedPolicy.SCHED_FIFO }

/-- The seven threads `main` creates. -/
inductive Thread where
  | fm_thread
  | display_thread
  | button_thread (b : Button)
deriving DecidableEq, Repr

/-- The attribute object each `pthread_create` call of `main` passes. -/
def Thread.attr : Thread → ThreadAttr
  | .fm_thread => lAttr
  | .display_thread => lAttr
  | .button_thread _ => hAttr

/-! ### Further call sequences -/

/-- The call sequence `TEA5767_Mute(); TEA5767_SetFrequency(f); TEA5767_Unmute()` from the initial
driver state on an open bus, each write accepted in full; the results of the three calls in
order. -/
def muteTuneUnmute (f : ℚ) :
    (ℤ × Driver × I2CBus) × (ℤ × Driver × I2CBus) × (ℤ × Driver × I2CBus) :=
  let s1 := TEA5767_Mute Driver.init ⟨true, []⟩ 5
  let s2 := TEA5767_SetFrequency s1.2.1 s1.2.2 5 f
  let s3 := TEA5767_Unmute s2.2.1 s2.2.2 5
  (s1, s2, s3)

/-- Completed presses that walk down to the lower band edge: three decreases with the tenths
digit active, a digit-select, then `n` decreases with the ones digit active. -/
def lowEdgePresses (n : ℕ) : List StagingPress :=
  [.decrease, .decrease, .decrease, .digitSelect] ++ List.replicate n .decrease

/-- The register image `new` differs from `old` at most in the bits of byte `i` selected by
`mask`: same length, every other byte equal, and byte `i` equal outside the mask. -/
def sameExceptBits (old new : List ℕ) (i mask : ℕ) : Prop :=
  new.length = old.length ∧
  (∀ j : ℕ, j ≠ i → new.getD j 0 = old.getD j 0) ∧
  new.getD i 0 &&& (0xFF ^^^ mask) = old.getD i 0 &&& (0xFF ^^^ mask)

/-! ## Bytes and lists -/

theorem length_five {l : List ℕ} (h : l.length = 5) : ∃ a b c d e, l = [a, b, c, d, e] := by
  match l, h with
  | [a, b, c, d, e], _ => exact ⟨a, b, c, d, e, rfl⟩

theorem pll_high_byte (pll : ℕ) : ((pll >>> 8) &&& 0x3F) % 256 = (pll >>> 8) &&& 0x3F :=
  Nat.mod_eq_of_lt (lt_of_le_of_lt Nat.and_le_right (by norm_num))

theorem pll_low_byte (pll : ℕ) : (pll &&& 0xFF) % 256 = pll &&& 0xFF :=
  Nat.mod_eq_of_lt (lt_of_le_of_lt Nat.and_le_right (by norm_num))

theorem pll_low_byte_muted (pll : ℕ) : ((pll &&& 0xFF) ||| 0x80) % 256 = (pll &&& 0xFF) ||| 0x80 := by
  apply Nat.mod_eq_of_lt
  have h1 : pll &&& 0xFF < 2 ^ 8 := lt_of_le_of_lt Nat.and_le_right (by norm_num)
  have h2 : (0x80 : ℕ) < 2 ^ 8 := by norm_num
  exact Nat.or_lt_two_pow h1 h2

theorem pll_high_byte_bit7 (pll : ℕ) : ((pll >>> 8) &&& 0x3F) &&& 0x80 = 0 := by
  rw [Nat.and_assoc]
  have : (0x3F : ℕ) &&& 0x80 = 0 := by decide
  rw [this, Nat.and_zero]

theorem or_mute_bit : ∀ x < 64, ((x ||| 0x80) % 256) &&& 0x80 = 0x80 := by decide

/-- The register image `TEA5767_SetFrequency` builds when the mute flag is set. -/
theorem setFrequency_buffer_muted (drv : Driver) (bus : I2CBus) (accepted : ℤ) (f : ℚ)
    (hlen : drv.writeBuffer.length = 5) (hmute : drv.mute_state ≠ 0) :
    (TEA5767_SetFrequency drv bus accepted f).2.1.writeBuffer =
      [(getFrequency drv.clock_frequency f >>> 8) &&& 0x3F,
       (getFrequency drv.clock_frequency f &&& 0xFF) ||| 0x80,
       0x10,
       if drv.standby_mode ≠ 0 then 0x50 else 0x10,
       0x40] ∧
    (TEA5767_SetFrequency drv bus accepted f).2.1.writeBuffer.getD 0 0 &&& 0x80 = 0 := by
  obtain ⟨a, b, c, d, e, hl⟩ := length_five hlen
  have himg : (TEA5767_SetFrequency drv bus accepted f).2.1.writeBuffer =
      [(getFrequency drv.clock_frequency f >>> 8) &&& 0x3F,
       (getFrequency drv.clock_frequency f &&& 0xFF) ||| 0x80,
       0x10,
       if drv.standby_mode ≠ 0 then 0x50 else 0x10,
       0x40] := by
    by_cases hs : drv.standby_mode = 0
    · simp [TEA5767_SetFrequency, hl, hmute, hs, BYTE_1, BYTE_2, BYTE_3, BYTE_4, BYTE_5,
        PLL_MASK_BYTE_1, PLL_MASK_BYTE_2, HI_INJECTION, XTAL_32768HZ, DTC_75US, MUTE_MASK,
        STANDBY_ON_MASK, pll_high_byte, pll_low_byte, pll_low_byte_muted]
    · simp [TEA5767_SetFrequency, hl, hmute, hs, BYTE_1, BYTE_2, BYTE_3, BYTE_4, BYTE_5,
        PLL_MASK_BYTE_1, PLL_MASK_BYTE_2, HI_INJECTION, XTAL_32768HZ, DTC_75US, MUTE_MASK,
        STANDBY_ON_MASK, pll_high_byte, pll_low_byte, pll_low_byte_muted]
  refine ⟨himg, ?_⟩
  rw [himg]
  simpa using pll_high_byte_bit7 _

/-- Claim C1 (what the code does where the claim fails).  With the mute flag set and any register
image of five bytes, `TEA5767_SetFrequency` leaves byte 0 equal to `(PLL >> 8) & 0x3F`, whose
bit 7 is clear, and ors the mute mask `0x80` into byte 1, the low byte of the PLL word; bytes 2
to 4 are `0x10`, `0x10` (with `0x40` in standby) and `0x40`. -/
theorem setFrequency_muted_image (drv : Driver) (bus : I2CBus) (accepted : ℤ) (f : ℚ)
    (hlen : drv.writeBuffer.length = 5) (hmute : drv.mute_state ≠ 0) :
    (TEA5767_SetFrequency drv bus accepted f).2.1.writeBuffer =
      [(getFrequency drv.clock_frequency f >>> 8) &&& 0x3F,
       (getFrequency drv.clock_frequency f &&& 0xFF) ||| 0x80,
       0x10,
       if drv.standby_mode ≠ 0 then 0x50 else 0x10,
       0x40] ∧
    (TEA5767_SetFrequency drv bus accepted f).2.1.writeBuffer.getD 0 0 &&& 0x80 = 0 :=
  setFrequency_buffer_muted drv bus accepted f hlen hmute

/-- Witness for `setFrequency_muted_image`: after `TEA5767_Mute`, tuning to 94.7 MHz (PLL word
`0x2D43`) leaves the image `2D C3 10 10 40`, not `AD 43 10 10 40`. -/
theorem setFrequency_muted_image_witness :
    (TEA5767_SetFrequency (TEA5767_Mute Driver.init ⟨true, []⟩ 5).2.1 ⟨true, []⟩ 5
        (f32 (f64 94.7))).2.1.writeBuffer = [0x2D, 0xC3, 0x10, 0x10, 0x40] ∧
    getFrequency 32768 (f32 (f64 94.7)) = 0x2D43 ∧
    (TEA5767_SetFrequency (TEA5767_Mute Driver.init ⟨true, []⟩ 5).2.1 ⟨true, []⟩ 5
        (f32 (f64 94.7))).2.1.writeBuffer.getD 0 0 &&& 0x80 = 0 :=
  ⟨by decide!, by decide!,
    (setFrequency_muted_image (TEA5767_Mute Driver.init ⟨true, []⟩ 5).2.1 ⟨true, []⟩ 5
      (f32 (f64 94.7)) (by decide) (by decide)).2⟩

/-- Claim C2 (what the code does where the claim fails).  For all `f1`, `f2`, after
`TEA5767_SetFrequency(f1); TEA5767_Mute(); TEA5767_SetFrequency(f2)` from the initial driver
state, all three writes accepted in full, every call has returned `0`, the mute bit is set after
`TEA5767_Mute`, the driver still records `mute_state = 1`, and yet bit 7 of byte 0 of the final
register image is clear. -/
theorem mute_bit_lost_by_retune (f1 f2 : ℚ) :
    (tuneMuteTune f1 f2).1.1 = 0 ∧ (tuneMuteTune f1 f2).2.1.1 = 0 ∧
    (tuneMuteTune f1 f2).2.2.1 = 0 ∧
    (tuneMuteTune f1 f2).2.1.2.1.writeBuffer.getD 0 0 &&& 0x80 = 0x80 ∧
    (tuneMuteTune f1 f2).2.2.2.1.mute_state = 1 ∧
    (tuneMuteTune f1 f2).2.2.2.1.writeBuffer.getD 0 0 &&& 0x80 = 0 := by
  unfold tuneMuteTune
  simp only []
  set s1 := TEA5767_SetFrequency Driver.init ⟨true, []⟩ 5 f1 with hs1
  set s2 := TEA5767_Mute s1.2.1 s1.2.2 5 with hs2
  set s3 := TEA5767_SetFrequency s2.2.1 s2.2.2 5 f2 with hs3
  have hlen2 : s2.2.1.writeBuffer.length = 5 := by
    simp [s2, s1, TEA5767_Mute, TEA5767_SetFrequency, Driver.init]
  have hmute2 : s2.2.1.mute_state ≠ 0 := by
    simp [s2, TEA5767_Mute]
  refine ⟨?_, ?_, ?_, ?_, ?_, ?_⟩
  · simp [s1, TEA5767_SetFrequency, I2C_WriteRegisters, sysWrite, toInt8, statusOf,
      BUFFER_SIZE]
  · simp [s2, s1, TEA5767_Mute, TEA5767_SetFrequency, I2C_WriteRegisters, sysWrite, toInt8,
      statusOf, BUFFER_SIZE]
  · simp [s3, s2, s1, TEA5767_Mute, TEA5767_SetFrequency, I2C_WriteRegisters, sysWrite, toInt8,
      statusOf, BUFFER_SIZE]
  · have h := or_mute_bit (getFrequency 32768 f1 >>> 8 &&& 0x3F)
      (lt_of_le_of_lt Nat.and_le_right (by norm_num))
    simpa [s2, s1, TEA5767_Mute, TEA5767_SetFrequency, Driver.init, BYTE_1, BYTE_2, BYTE_3,
      BYTE_4, BYTE_5, PLL_MASK_BYTE_1, MUTE_MASK, pll_high_byte] using h
  · simp [s3, s2, TEA5767_Mute, TEA5767_SetFrequency]
  · exact (setFrequency_buffer_muted s2.2.1 s2.2.2 5 f2 hlen2 hmute2).2

/-! ## Rounding error of the floating-point model -/

theorem log2Fuel_spec : ∀ fuel n : ℕ, 0 < n → n ≤ fuel →
    2 ^ log2Fuel fuel n ≤ n ∧ n < 2 ^ (log2Fuel fuel n + 1) := by
  intro fuel
  induction fuel with
  | zero => intro n h0 h1; omega
  | succ fuel ih =>
    intro n h0 h1
    unfold log2Fuel
    by_cases h2 : n < 2
    · rw [if_pos h2]
      constructor
      · simpa using h0
      · simpa using h2
    · rw [if_neg h2]
      have hpos : 0 < n / 2 := Nat.div_pos (by omega) (by norm_num)
      have hle : n / 2 ≤ fuel := by omega
      obtain ⟨ih1, ih2⟩ := ih (n / 2) hpos hle
      constructor
      · rw [pow_succ]; omega
      · rw [pow_succ]; omega

theorem roundHalfEven_err (n d : ℕ) (hd : 0 < d) :
    |((roundHalfEven n d : ℕ) : ℚ) - (n : ℚ) / (d : ℚ)| ≤ 1 / 2 := by
  have hdq : (0 : ℚ) < d := by exact_mod_cast hd
  have hdiv : d * (n / d) + n % d = n := Nat.div_add_mod n d
  have hmod : n % d < d := Nat.mod_lt n hd
  have key : ∀ m : ℕ, (2 * (m * d) ≤ 2 * n + d) → (2 * n ≤ 2 * (m * d) + d) →
      |((m : ℕ) : ℚ) - (n : ℚ) / (d : ℚ)| ≤ 1 / 2 := by
    intro m h1 h2
    have h1q : (2 : ℚ) * (m * d) ≤ 2 * n + d := by exact_mod_cast h1
    have h2q : (2 : ℚ) * n ≤ 2 * (m * d) + d := by exact_mod_cast h2
    have ht : (n : ℚ) / d * d = n := div_mul_cancel₀ _ (ne_of_gt hdq)
    generalize (n : ℚ) / d = t at ht
    rw [abs_le]
    constructor
    · by_contra h
      push_neg at h
      nlinarith [mul_pos (sub_pos.mpr h) hdq]
    · by_contra h
      push_neg at h
      nlinarith [mul_pos (sub_pos.mpr h) hdq]
  have hq : (n / d) * d = d * (n / d) := Nat.mul_comm _ _
  have hq1 : (n / d + 1) * d = d * (n / d) + d := by ring
  unfold roundHalfEven
  simp only []
  split_ifs with c1 c2 c3
  · apply key <;> omega
  · apply key <;> omega
  · apply key <;> omega
  · apply key <;> omega

theorem two_zpow_toNat {e : ℤ} (h : 0 ≤ e) : (2 : ℚ) ^ e = ((2 ^ e.toNat : ℕ) : ℚ) := by
  conv_lhs => rw [← Int.toNat_of_nonneg h]
  rw [zpow_natCast]
  push_cast
  rfl

theorem two_zpow_neg_toNat {e : ℤ} (h : e ≤ 0) : (2 : ℚ) ^ e = (((2 ^ (-e).toNat : ℕ) : ℚ))⁻¹ := by
  have h2 : e = -(-e) := by ring
  conv_lhs => rw [h2]
  rw [zpow_neg, two_zpow_toNat (by omega : (0 : ℤ) ≤ -e)]

theorem ilog2_le (n d : ℕ) (hn : 0 < n) (hd : 0 < d) :
    (2 : ℚ) ^ ilog2 n d ≤ (n : ℚ) / (d : ℚ) := by
  have hdq : (0 : ℚ) < d := by exact_mod_cast hd
  have hnq : (0 : ℚ) < n := by exact_mod_cast hn
  -- the case where the exponent was lowered by one
  have low : (2 : ℚ) ^ (((log2Fuel n n : ℤ) - (log2Fuel d d : ℤ)) - 1) ≤ (n : ℚ) / (d : ℚ) := by
    obtain ⟨hn1, _⟩ := log2Fuel_spec n n hn le_rfl
    obtain ⟨_, hd2⟩ := log2Fuel_spec d d hd le_rfl
    have hn1q : (2 : ℚ) ^ (log2Fuel n n) ≤ n := by exact_mod_cast hn1
    have hd2q : (d : ℚ) < (2 : ℚ) ^ (log2Fuel d d + 1) := by exact_mod_cast hd2
    have he : ((log2Fuel n n : ℤ) - (log2Fuel d d : ℤ)) - 1
        = (log2Fuel n n : ℤ) - ((log2Fuel d d + 1 : ℕ) : ℤ) := by push_cast; ring
    rw [he, zpow_sub₀ (by norm_num : (2 : ℚ) ≠ 0), zpow_natCast, zpow_natCast]
    exact div_le_div₀ hnq.le hn1q hdq hd2q.le
  unfold ilog2
  simp only []
  by_cases c0 : 0 ≤ (log2Fuel n n : ℤ) - (log2Fuel d d : ℤ)
  · by_cases c1 : d * 2 ^ ((log2Fuel n n : ℤ) - (log2Fuel d d : ℤ)).toNat ≤ n
    · simp only [c0, c1, ↓reduceIte]
      rw [two_zpow_toNat c0, le_div_iff₀ hdq]
      have : (((d * 2 ^ (((log2Fuel n n : ℤ) - (log2Fuel d d : ℤ)).toNat) : ℕ)) : ℚ) ≤ (n : ℚ) := by
        exact_mod_cast c1
      push_cast at this ⊢
      linarith
    · simp only [c0, c1, ↓reduceIte]
      exact low
  · by_cases c2 : d ≤ n * 2 ^ (-((log2Fuel n n : ℤ) - (log2Fuel d d : ℤ))).toNat
    · simp only [c0, c2, ↓reduceIte]
      rw [two_zpow_neg_toNat (by omega), le_div_iff₀ hdq]
      have h2 : ((d : ℕ) : ℚ)
          ≤ ((n * 2 ^ ((-((log2Fuel n n : ℤ) - (log2Fuel d d : ℤ))).toNat) : ℕ) : ℚ) := by
        exact_mod_cast c2
      have hp : (0 : ℚ)
          < ((2 ^ ((-((log2Fuel n n : ℤ) - (log2Fuel d d : ℤ))).toNat) : ℕ) : ℚ) := by
        positivity
      rw [inv_mul_le_iff₀ hp]
      push_cast at h2 ⊢
      linarith
    · simp only [c0, c2, ↓reduceIte]
      exact low

theorem roundBinary_err (p : ℕ) (emin E : ℤ) (x : ℚ) (hx : |x| < (2 : ℚ) ^ E) (hE : emin < E) :
    |roundBinary p emin x - x| ≤ (2 : ℚ) ^ (E - p) / 2 := by
  have hpow : (0 : ℚ) < (2 : ℚ) ^ (E - p) := by positivity
  unfold roundBinary
  by_cases h0 : x = 0
  · rw [if_pos h0, h0]; simp; positivity
  rw [if_neg h0]
  simp only []
  have hd : 0 < x.den := x.den_pos
  have hn : 0 < x.num.natAbs := Int.natAbs_pos.mpr (Rat.num_ne_zero.mpr h0)
  have hdq : (0 : ℚ) < x.den := by exact_mod_cast hd
  have habs : |x| = (x.num.natAbs : ℚ) / (x.den : ℚ) := by
    conv_lhs => rw [← Rat.num_div_den x]
    rw [abs_div, Nat.cast_natAbs, abs_of_pos hdq]
    push_cast
    rfl
  set n := x.num.natAbs with hn_def
  set d := x.den with hd_def
  -- the exponent of the last place is at most E - p
  have hlog : ilog2 n d < E := by
    have h1 := ilog2_le n d hn hd
    rw [← habs] at h1
    exact (zpow_lt_zpow_iff_right₀ (by norm_num : (1 : ℚ) < 2)).mp (lt_of_le_of_lt h1 hx)
  set k := max (ilog2 n d) emin - ((p : ℤ) - 1) with hk_def
  have hk : k ≤ E - p := by
    have : max (ilog2 n d) emin < E := max_lt hlog hE
    omega
  have hkpow : (2 : ℚ) ^ k ≤ (2 : ℚ) ^ (E - p) := zpow_le_zpow_right₀ (by norm_num) hk
  -- the rounded magnitude is within half a unit in the last place
  have hy_pos : 0 ≤ k → |((roundHalfEven n (d * 2 ^ k.toNat) * 2 ^ k.toNat : ℕ) : ℚ)
      - (n : ℚ) / (d : ℚ)| ≤ (2 : ℚ) ^ k / 2 := by
    intro hk0
    rw [two_zpow_toNat hk0]
    have hK : (0 : ℚ) < ((2 ^ k.toNat : ℕ) : ℚ) := by positivity
    have h := roundHalfEven_err n (d * 2 ^ k.toNat) (by positivity)
    have e1 : ((roundHalfEven n (d * 2 ^ k.toNat) * 2 ^ k.toNat : ℕ) : ℚ) - (n : ℚ) / (d : ℚ)
        = (((roundHalfEven n (d * 2 ^ k.toNat) : ℕ) : ℚ)
            - (n : ℚ) / ((d * 2 ^ k.toNat : ℕ) : ℚ)) * ((2 ^ k.toNat : ℕ) : ℚ) := by
      push_cast
      field_simp
      ring
    rw [e1, abs_mul, abs_of_pos hK]
    calc _ ≤ 1 / 2 * ((2 ^ k.toNat : ℕ) : ℚ) := mul_le_mul_of_nonneg_right h hK.le
      _ = _ := by ring
  have hy_neg : ¬ 0 ≤ k → |((roundHalfEven (n * 2 ^ (-k).toNat) d : ℕ) : ℚ)
      / ((2 ^ (-k).toNat : ℕ) : ℚ) - (n : ℚ) / (d : ℚ)| ≤ (2 : ℚ) ^ k / 2 := by
    intro hk0
    rw [two_zpow_neg_toNat (by omega)]
    have hK : (0 : ℚ) < ((2 ^ (-k).toNat : ℕ) : ℚ) := by positivity
    have h := roundHalfEven_err (n * 2 ^ (-k).toNat) d hd
    have e1 : ((roundHalfEven (n * 2 ^ (-k).toNat) d : ℕ) : ℚ) / ((2 ^ (-k).toNat : ℕ) : ℚ)
          - (n : ℚ) / (d : ℚ)
        = (((roundHalfEven (n * 2 ^ (-k).toNat) d : ℕ) : ℚ)
            - ((n * 2 ^ (-k).toNat : ℕ) : ℚ) / (d : ℚ)) / ((2 ^ (-k).toNat : ℕ) : ℚ) := by
      push_cast
      field_simp
      ring
    rw [e1, abs_div, abs_of_pos hK]
    calc _ ≤ 1 / 2 / ((2 ^ (-k).toNat : ℕ) : ℚ) := div_le_div_of_nonneg_right h hK.le
      _ = _ := by ring
  have hfin : ∀ y : ℚ, |y - (n : ℚ) / (d : ℚ)| ≤ (2 : ℚ) ^ k / 2 →
      |(if x < 0 then -y else y) - x| ≤ (2 : ℚ) ^ (E - p) / 2 := by
    intro y hy
    have hxa : x = if x < 0 then -((n : ℚ) / (d : ℚ)) else (n : ℚ) / (d : ℚ) := by
      by_cases hneg : x < 0
      · rw [if_pos hneg, ← habs, abs_of_neg hneg, neg_neg]
      · rw [if_neg hneg, ← habs, abs_of_nonneg (not_lt.mp hneg)]
    by_cases hneg : x < 0
    · rw [if_pos hneg] at hxa ⊢
      have : -y - x = -(y - (n : ℚ) / (d : ℚ)) := by rw [hxa]; ring
      rw [this, abs_neg]
      linarith
    · rw [if_neg hneg] at hxa ⊢
      rw [hxa]
      linarith
  by_cases hk0 : 0 ≤ k
  · simp only [hk0, ↓reduceIte]
    exact hfin _ (hy_pos hk0)
  · simp only [hk0, ↓reduceIte]
    exact hfin _ (hy_neg hk0)

theorem f32_err (x : ℚ) (E : ℤ) (hE : -126 < E) (hx : |x| < (2 : ℚ) ^ E) :
    |f32 x - x| ≤ (2 : ℚ) ^ (E - 24) / 2 := by
  simpa [f32] using roundBinary_err 24 (-126) E x hx hE

theorem toWORD_floor (x : ℚ) (h0 : 0 ≤ x) (h1 : x < 65536) :
    ((toWORD x : ℕ) : ℚ) ≤ x ∧ x - 1 < ((toWORD x : ℕ) : ℚ) := by
  have hf0 : 0 ≤ ⌊x⌋ := Int.floor_nonneg.mpr h0
  have hf1 : ⌊x⌋ < 65536 := Int.floor_lt.mpr (by exact_mod_cast h1)
  have hw : ((toWORD x : ℕ) : ℤ) = ⌊x⌋ := by
    unfold toWORD
    rw [if_pos h0]
    omega
  have hq : ((toWORD x : ℕ) : ℚ) = ((⌊x⌋ : ℤ) : ℚ) := by
    rw [← hw]; norm_cast
  rw [hq]
  exact ⟨Int.floor_le x, Int.sub_one_lt_floor x⟩

/-- The value `getFrequency` converts to a word is within `1 / 256` of the exact quotient, for
every frequency of the band and every reference between 32768 and 50000. -/
theorem quotient_f32_err (f r : ℚ) (h1 : 87.5 ≤ f) (h2 : f ≤ 108) (hr1 : 32768 ≤ r)
    (hr2 : r ≤ 50000) :
    |f32 (f32 (4 * f32 (f32 (f * 1000000) + 225000)) / r) - 4 * (f * 1000000 + 225000) / r|
      ≤ 1 / 256 ∧
    7000 ≤ f32 (f32 (4 * f32 (f32 (f * 1000000) + 225000)) / r) ∧
    f32 (f32 (4 * f32 (f32 (f * 1000000) + 225000)) / r) ≤ 13212 := by
  have hr0 : (0 : ℚ) < r := by linarith
  have e1 := f32_err (f * 1000000) 27 (by norm_num)
    (by rw [abs_of_nonneg (by linarith)]; norm_num; linarith)
  norm_num at e1
  rw [abs_le] at e1
  set a1 := f32 (f * 1000000) with ha1
  have e2 := f32_err (a1 + 225000) 27 (by norm_num)
    (by rw [abs_of_nonneg (by linarith)]; norm_num; linarith)
  norm_num at e2
  rw [abs_le] at e2
  set a2 := f32 (a1 + 225000) with ha2
  have e3 := f32_err (4 * a2) 29 (by norm_num)
    (by rw [abs_of_nonneg (by linarith)]; norm_num; linarith)
  norm_num at e3
  rw [abs_le] at e3
  set a3 := f32 (4 * a2) with ha3
  have hq_lo : (350899952 : ℚ) / 50000 ≤ a3 / r :=
    div_le_div₀ (by linarith) (by linarith) hr0 hr2
  have hq_hi : a3 / r ≤ (432900048 : ℚ) / 32768 :=
    div_le_div₀ (by norm_num) (by linarith) (by norm_num) hr1
  have e4 := f32_err (a3 / r) 14 (by norm_num)
    (by rw [abs_of_nonneg (by linarith)]; norm_num; linarith)
  norm_num at e4
  rw [abs_le] at e4
  set a4 := f32 (a3 / r) with ha4
  -- the error carried into the division
  have hd : |a3 / r - 4 * (f * 1000000 + 225000) / r| ≤ 48 / 32768 := by
    rw [← sub_div, abs_div, abs_of_pos hr0]
    have : |a3 - 4 * (f * 1000000 + 225000)| ≤ 48 := by
      rw [abs_le]; constructor <;> linarith
    exact div_le_div₀ (by norm_num) this (by norm_num) hr1
  rw [abs_le] at hd
  refine ⟨?_, ?_, ?_⟩
  · rw [abs_le]; constructor <;> linarith
  · linarith
  · linarith

theorem getFrequency_other_clock (clk : ℕ) (h : clk ≠ 32768) (f : ℚ) :
    getFrequency clk f = getFrequency 50000 f := by
  simp [getFrequency, refFreq, h]

theorem getFrequency_grid_32768 : ∀ k < 206,
    getFrequency 32768 (f32 (f64 (((875 + k : ℕ) : ℚ) / 10)))
      = (4 * ((875 + k) * 100000 + 225000)) / 32768 := by
  decide!

theorem getFrequency_grid_50000 : ∀ k < 206,
    getFrequency 50000 (f32 (f64 (((875 + k : ℕ) : ℚ) / 10)))
      = (4 * ((875 + k) * 100000 + 225000)) / 50000 := by
  decide!

/-- On the 0.1 MHz grid of the band the PLL word is the integer quotient. -/
theorem getFrequency_grid (clk k : ℕ) (h1 : 875 ≤ k) (h2 : k ≤ 1080) :
    getFrequency clk (f32 (f64 ((k : ℚ) / 10))) = (4 * (k * 100000 + 225000)) / refFreq clk := by
  obtain ⟨j, rfl⟩ : ∃ j, k = 875 + j := ⟨k - 875, by omega⟩
  by_cases hc : clk = 32768
  · subst hc
    simpa [refFreq, REF_FREQ_32768HZ] using getFrequency_grid_32768 j (by omega)
  · rw [getFrequency_other_clock clk hc]
    simpa [refFreq, hc, REF_FREQ_OTHER] using getFrequency_grid_50000 j (by omega)

theorem refFreq_cases (clk : ℕ) : refFreq clk = 32768 ∨ refFreq clk = 50000 := by
  unfold refFreq REF_FREQ_32768HZ REF_FREQ_OTHER
  split_ifs <;> simp


/-- Claim C3 (counterexample).  At 94.7 MHz with the 32768 Hz reference the specification's rounded
quotient is 11588, but `getFrequency` yields 11587, for the `float` nearest to 94.7 and for the
exact decimal alike: the fractional part .52 is dropped, not rounded. -/
theorem getFrequency_not_rounded :
    (87.5 : ℚ) ≤ 94.7 ∧ (94.7 : ℚ) ≤ 108 ∧
    specRoundedPLL 94.7 (refFreq 32768) = 11588 ∧
    getFrequency 32768 (f32 (f64 94.7)) = 11587 ∧
    getFrequency 32768 94.7 = 11587 ∧
    ((getFrequency 32768 (f32 (f64 94.7)) : ℕ) : ℤ) ≠ specRoundedPLL 94.7 (refFreq 32768) := by
  refine ⟨by norm_num, by norm_num, by decide!, by decide!, by decide!, by decide!⟩

/-- Claim C3 (amended).  For every frequency `f` of the band and either reference, the PLL word is
the quotient `q = 4 * (f * 1000000 + 225000) / ref` with its fractional part dropped: it lies in
`(q - 1 - 1/256, q + 1/256]`, the `1/256` covering the single-precision evaluation, and when `f`
is a multiple of 0.1 MHz (passed as the nearest `float`) it is exactly `⌊q⌋`. -/
theorem getFrequency_truncates (clk : ℕ) (f : ℚ) (h1 : 87.5 ≤ f) (h2 : f ≤ 108) :
    4 * (f * 1000000 + 225000) / (refFreq clk : ℚ) - 1 - 1 / 256 < (getFrequency clk f : ℚ) ∧
    (getFrequency clk f : ℚ) ≤ 4 * (f * 1000000 + 225000) / (refFreq clk : ℚ) + 1 / 256 ∧
    (∀ k : ℕ, f = (k : ℚ) / 10 →
      ((getFrequency clk (f32 (f64 f)) : ℕ) : ℤ)
        = ⌊4 * (f * 1000000 + 225000) / (refFreq clk : ℚ)⌋) := by
  have hr : (32768 : ℚ) ≤ (refFreq clk : ℚ) ∧ ((refFreq clk : ℕ) : ℚ) ≤ 50000 := by
    rcases refFreq_cases clk with h | h <;> rw [h] <;> norm_num
  obtain ⟨he, hlo, hhi⟩ := quotient_f32_err f (refFreq clk) h1 h2 hr.1 hr.2
  obtain ⟨hw1, hw2⟩ := toWORD_floor
    (f32 (f32 (4 * f32 (f32 (f * 1000000) + 225000)) / (refFreq clk : ℚ)))
    (by linarith) (by linarith)
  have hg : getFrequency clk f
      = toWORD (f32 (f32 (4 * f32 (f32 (f * 1000000) + 225000)) / (refFreq clk : ℚ))) := by
    simp [getFrequency, INTERMEDIATE_FREQ]
  rw [abs_le] at he
  refine ⟨?_, ?_, ?_⟩
  · rw [hg]; linarith
  · rw [hg]; linarith
  · intro k hk
    have hk1 : 875 ≤ k := by
      have : (875 : ℚ) ≤ k := by rw [hk] at h1; linarith
      exact_mod_cast this
    have hk2 : k ≤ 1080 := by
      have : (k : ℚ) ≤ 1080 := by rw [hk] at h2; linarith
      exact_mod_cast this
    rw [hk, getFrequency_grid clk k hk1 hk2]
    have hq : 4 * ((k : ℚ) / 10 * 1000000 + 225000) / (refFreq clk : ℚ)
        = ((4 * (k * 100000 + 225000) : ℕ) : ℚ) / ((refFreq clk : ℕ) : ℚ) := by
      push_cast; ring
    rw [hq, Rat.floor_natCast_div_natCast]
    norm_cast

/-- Witness for `getFrequency_truncates` at 94.7 MHz, clock 32768. -/
theorem getFrequency_truncates_witness :
    (87.5 : ℚ) ≤ 94.7 ∧ (94.7 : ℚ) ≤ 108 ∧
    4 * ((94.7 : ℚ) * 1000000 + 225000) / (refFreq 32768 : ℚ) - 1 - 1 / 256
      < (getFrequency 32768 94.7 : ℚ) ∧
    (getFrequency 32768 94.7 : ℚ)
      ≤ 4 * ((94.7 : ℚ) * 1000000 + 225000) / (refFreq 32768 : ℚ) + 1 / 256 ∧
    ((getFrequency 32768 (f32 (f64 94.7)) : ℕ) : ℤ)
      = ⌊4 * ((94.7 : ℚ) * 1000000 + 225000) / (refFreq 32768 : ℚ)⌋ :=
  have h := getFrequency_truncates 32768 94.7 (by norm_num) (by norm_num)
  ⟨by norm_num, by norm_num, h.1, h.2.1, h.2.2 947 (by norm_num)⟩

/-- Claim C4.  For every multiple `k / 10` of 0.1 MHz in the band and either reference, decoding the
PLL word of `getFrequency` with the inverse formula gives a frequency within 0.1 MHz of `k / 10`. -/
theorem encode_decode_within_tenth (clk k : ℕ) (h1 : 875 ≤ k) (h2 : k ≤ 1080) :
    |specDecodePLL (getFrequency clk (f32 (f64 ((k : ℚ) / 10)))) (refFreq clk) - (k : ℚ) / 10|
      < 1 / 10 := by
  rw [getFrequency_grid clk k h1 h2]
  have hr0 : 0 < refFreq clk := by
    rcases refFreq_cases clk with h | h <;> rw [h] <;> norm_num
  have hr2 : refFreq clk ≤ 50000 := by
    rcases refFreq_cases clk with h | h <;> omega
  have hle : (4 * (k * 100000 + 225000)) / refFreq clk * refFreq clk ≤ 4 * (k * 100000 + 225000) :=
    Nat.div_mul_le_self _ _
  have hlt : 4 * (k * 100000 + 225000)
      < (4 * (k * 100000 + 225000)) / refFreq clk * refFreq clk + refFreq clk := by
    have := Nat.lt_div_mul_add (a := 4 * (k * 100000 + 225000)) hr0
    linarith
  have hleq : (((4 * (k * 100000 + 225000)) / refFreq clk : ℕ) : ℚ) * (refFreq clk : ℚ)
      ≤ 4 * ((k : ℚ) * 100000 + 225000) := by exact_mod_cast hle
  have hltq : 4 * ((k : ℚ) * 100000 + 225000)
      < (((4 * (k * 100000 + 225000)) / refFreq clk : ℕ) : ℚ) * (refFreq clk : ℚ)
        + (refFreq clk : ℚ) := by exact_mod_cast hlt
  have hr2q : (refFreq clk : ℚ) ≤ 50000 := by exact_mod_cast hr2
  unfold specDecodePLL
  rw [abs_lt]
  exact ⟨by linarith, by linarith⟩

/-- Witness for `encode_decode_within_tenth` at 94.7 MHz, clock 32768. -/
theorem encode_decode_within_tenth_witness :
    |specDecodePLL (getFrequency 32768 (f32 (f64 (((947 : ℕ) : ℚ) / 10)))) (refFreq 32768)
        - ((947 : ℕ) : ℚ) / 10| < 1 / 10 :=
  encode_decode_within_tenth 32768 947 (by decide) (by decide)

/-! ## The staged frequency, frequencies taken as exact decimals -/

theorem backButtonPress_exact (g : Globals) :
    (backButtonPress exactDecimal g).g_frequency
      = if g.g_digit = 1 then (if 88.4 < g.g_frequency then g.g_frequency - 1 else g.g_frequency)
        else (if 87.5 < g.g_frequency then g.g_frequency - 0.1 else g.g_frequency) := by
  unfold backButtonPress exactDecimal
  simp only [id, gt_iff_lt]
  split_ifs <;> norm_num

theorem forwardButtonPress_exact (g : Globals) :
    (forwardButtonPress exactDecimal g).g_frequency
      = if g.g_digit = 1 then (if g.g_frequency < 107.0 then g.g_frequency + 1 else g.g_frequency)
        else (if g.g_frequency < 107.9 then g.g_frequency + 0.1 else g.g_frequency) := by
  unfold forwardButtonPress exactDecimal
  simp only [id]
  split_ifs <;> norm_num

theorem backButtonPress_digit (sem : FloatSem) (g : Globals) :
    (backButtonPress sem g).g_digit = g.g_digit := by
  unfold backButtonPress
  split_ifs <;> rfl

theorem forwardButtonPress_digit (sem : FloatSem) (g : Globals) :
    (forwardButtonPress sem g).g_digit = g.g_digit := by
  unfold forwardButtonPress
  split_ifs <;> rfl

theorem backButtonPress_onBandGrid (g : Globals) (h : OnBandGrid g) :
    OnBandGrid (backButtonPress exactDecimal g) := by
  obtain ⟨k, hk, h1, h2⟩ := h
  unfold OnBandGrid
  rw [backButtonPress_exact, hk]
  have h1q : (875 : ℚ) ≤ k := by exact_mod_cast h1
  split_ifs with hd hc hc
  · have : (884 : ℚ) < k := by norm_num at hc; linarith
    have : (884 : ℤ) < k := by exact_mod_cast this
    exact ⟨k - 10, by push_cast; ring, by omega, by omega⟩
  · exact ⟨k, rfl, h1, h2⟩
  · have : (875 : ℚ) < k := by norm_num at hc; linarith
    have : (875 : ℤ) < k := by exact_mod_cast this
    exact ⟨k - 1, by push_cast; ring, by omega, by omega⟩
  · exact ⟨k, rfl, h1, h2⟩

theorem forwardButtonPress_onBandGrid (g : Globals) (h : OnBandGrid g) :
    OnBandGrid (forwardButtonPress exactDecimal g) := by
  obtain ⟨k, hk, h1, h2⟩ := h
  unfold OnBandGrid
  rw [forwardButtonPress_exact, hk]
  split_ifs with hd hc hc
  · have : (k : ℚ) < 1070 := by norm_num at hc; linarith
    have : k < 1070 := by exact_mod_cast this
    exact ⟨k + 10, by push_cast; ring, by omega, by omega⟩
  · exact ⟨k, rfl, h1, h2⟩
  · have : (k : ℚ) < 1079 := by norm_num at hc; linarith
    have : k < 1079 := by exact_mod_cast this
    exact ⟨k + 1, by push_cast; ring, by omega, by omega⟩
  · exact ⟨k, rfl, h1, h2⟩

theorem stagingPress_onBandGrid (p : StagingPress) (g : Globals) (h : OnBandGrid g) :
    OnBandGrid (p.apply exactDecimal g) := by
  cases p
  · exact backButtonPress_onBandGrid g h
  · exact forwardButtonPress_onBandGrid g h
  · exact h

theorem runPresses_onBandGrid (presses : List StagingPress) (g : Globals) (h : OnBandGrid g) :
    OnBandGrid (runPresses exactDecimal presses g) := by
  unfold runPresses
  induction presses generalizing g with
  | nil => exact h
  | cons p ps ih => exact ih _ (stagingPress_onBandGrid p g h)

theorem onBandGrid_of (g : Globals) (k : ℤ) (hk : g.g_frequency = (k : ℚ) / 10)
    (hlo : 87.5 ≤ g.g_frequency) (hhi : g.g_frequency ≤ 108) : OnBandGrid g := by
  refine ⟨k, hk, ?_, ?_⟩
  · have : (875 : ℚ) ≤ k := by rw [hk] at hlo; norm_num at hlo; linarith
    exact_mod_cast this
  · have : (k : ℚ) ≤ 1080 := by rw [hk] at hhi; linarith
    exact_mod_cast this

/-- Claim C5.  Frequencies taken as exact decimals: from any staged frequency that is a multiple of
0.1 in [87.5, 108.0], every finite sequence of completed presses of the decrease, increase and
digit-select buttons leaves the staged frequency a multiple of 0.1 in [87.5, 108.0]; and a press
whose adjustment would leave the band changes nothing (no wrap). -/
theorem band_invariant (presses : List StagingPress) (g : Globals) (k : ℤ)
    (hk : g.g_frequency = (k : ℚ) / 10) (hlo : 87.5 ≤ g.g_frequency) (hhi : g.g_frequency ≤ 108) :
    (∃ k' : ℤ, (runPresses exactDecimal presses g).g_frequency = (k' : ℚ) / 10) ∧
    87.5 ≤ (runPresses exactDecimal presses g).g_frequency ∧
    (runPresses exactDecimal presses g).g_frequency ≤ 108 ∧
    (g.g_frequency - specStep g.g_digit < 87.5 → backButtonPress exactDecimal g = g) ∧
    (108 < g.g_frequency + specStep g.g_digit → forwardButtonPress exactDecimal g = g) := by
  obtain ⟨k', hk', h1, h2⟩ := runPresses_onBandGrid presses g (onBandGrid_of g k hk hlo hhi)
  have h1q : (875 : ℚ) ≤ k' := by exact_mod_cast h1
  have h2q : (k' : ℚ) ≤ 1080 := by exact_mod_cast h2
  refine ⟨⟨k', hk'⟩, ?_, ?_, ?_, ?_⟩
  · rw [hk']; norm_num; linarith
  · rw [hk']; linarith
  · intro hout
    unfold backButtonPress exactDecimal
    unfold specStep at hout
    simp only [id, gt_iff_lt]
    split_ifs with hd hc hc
    · rw [if_pos hd, hk] at hout
      rw [hk] at hc
      have a : (884 : ℚ) < k := by norm_num at hc; linarith
      have b : (k : ℚ) < 885 := by norm_num at hout; linarith
      have a' : (884 : ℤ) < k := by exact_mod_cast a
      have b' : k < 885 := by exact_mod_cast b
      omega
    · rfl
    · rw [if_neg hd, hk] at hout
      rw [hk] at hc
      have a : (875 : ℚ) < k := by norm_num at hc; linarith
      have b : (k : ℚ) < 876 := by norm_num at hout; linarith
      have a' : (875 : ℤ) < k := by exact_mod_cast a
      have b' : k < 876 := by exact_mod_cast b
      omega
    · rfl
  · intro hout
    unfold forwardButtonPress exactDecimal
    unfold specStep at hout
    simp only [id]
    split_ifs with hd hc hc
    · rw [if_pos hd] at hout; norm_num at hc hout; linarith
    · rfl
    · rw [if_neg hd] at hout; norm_num at hc hout; linarith
    · rfl

/-- Witness for `band_invariant`: three tenths-increases, a digit-select and two ones-decreases
from the initial state. -/
theorem band_invariant_witness :
    (Globals.init exactDecimal).g_frequency = ((947 : ℤ) : ℚ) / 10 ∧
    (87.5 : ℚ) ≤ (Globals.init exactDecimal).g_frequency ∧
    (Globals.init exactDecimal).g_frequency ≤ 108 ∧
    ((∃ k' : ℤ, (runPresses exactDecimal
        [.increase, .increase, .increase, .digitSelect, .decrease, .decrease]
        (Globals.init exactDecimal)).g_frequency = (k' : ℚ) / 10) ∧
     87.5 ≤ (runPresses exactDecimal
        [.increase, .increase, .increase, .digitSelect, .decrease, .decrease]
        (Globals.init exactDecimal)).g_frequency ∧
     (runPresses exactDecimal
        [.increase, .increase, .increase, .digitSelect, .decrease, .decrease]
        (Globals.init exactDecimal)).g_frequency ≤ 108 ∧
     ((Globals.init exactDecimal).g_frequency - specStep (Globals.init exactDecimal).g_digit < 87.5 →
        backButtonPress exactDecimal (Globals.init exactDecimal) = Globals.init exactDecimal) ∧
     (108 < (Globals.init exactDecimal).g_frequency + specStep (Globals.init exactDecimal).g_digit →
        forwardButtonPress exactDecimal (Globals.init exactDecimal) = Globals.init exactDecimal)) :=
  have h0 : (Globals.init exactDecimal).g_frequency = ((947 : ℤ) : ℚ) / 10 := by
    norm_num [Globals.init, exactDecimal, DEFAULT_FREQ]
  have h1 : (87.5 : ℚ) ≤ (Globals.init exactDecimal).g_frequency := by
    norm_num [Globals.init, exactDecimal, DEFAULT_FREQ]
  have h2 : (Globals.init exactDecimal).g_frequency ≤ 108 := by
    norm_num [Globals.init, exactDecimal, DEFAULT_FREQ]
  ⟨h0, h1, h2, band_invariant _ (Globals.init exactDecimal) 947 h0 h1 h2⟩

/-- The decrease press in the idealisation where frequencies are exact decimals (the arithmetic
of `band_invariant`, not the one the program performs): for a multiple `f` of 0.1 and step `s`
the press gives `f - s` when `f - s ≥ 87.5` and `f` otherwise, and 87.5 is a fixed point. -/
theorem backButtonPress_exactDecimal_clamped (g : Globals) (k : ℤ) (hk : g.g_frequency = (k : ℚ) / 10) :
    (backButtonPress exactDecimal g).g_frequency
      = (if 87.5 ≤ g.g_frequency - specStep g.g_digit then g.g_frequency - specStep g.g_digit
         else g.g_frequency) ∧
    (g.g_frequency = 87.5 → ∀ n : ℕ, ((backButtonPress exactDecimal)^[n] g) = g) := by
  constructor
  · rw [backButtonPress_exact]
    unfold specStep
    by_cases hd : g.g_digit = 1
    · simp only [hd, if_true]
      by_cases hc : (88.4 : ℚ) < g.g_frequency
      · rw [if_pos hc, if_pos]
        rw [hk] at hc ⊢
        have a : (884 : ℚ) < k := by norm_num at hc; linarith
        have a' : (884 : ℤ) < k := by exact_mod_cast a
        have b' : (885 : ℤ) ≤ k := by omega
        have b : (885 : ℚ) ≤ k := by exact_mod_cast b'
        norm_num; linarith
      · rw [if_neg hc, if_neg]
        norm_num at hc ⊢; linarith
    · simp only [hd, if_false]
      by_cases hc : (87.5 : ℚ) < g.g_frequency
      · rw [if_pos hc, if_pos]
        · norm_num
        · rw [hk] at hc ⊢
          have a : (875 : ℚ) < k := by norm_num at hc; linarith
          have a' : (875 : ℤ) < k := by exact_mod_cast a
          have b' : (876 : ℤ) ≤ k := by omega
          have b : (876 : ℚ) ≤ k := by exact_mod_cast b'
          norm_num; linarith
      · rw [if_neg hc, if_neg]
        norm_num at hc ⊢; linarith
  · intro h875 n
    have hfix : backButtonPress exactDecimal g = g := by
      unfold backButtonPress exactDecimal
      simp only [id, gt_iff_lt]
      split_ifs with hd hc hc
      · rw [h875] at hc; norm_num at hc
      · rfl
      · rw [h875] at hc; norm_num at hc
      · rfl
    exact Function.iterate_fixed hfix n

/-- Example for `backButtonPress_exactDecimal_clamped`: 88.5 MHz with the ones digit active. -/
theorem backButtonPress_exactDecimal_clamped_example :
    ({ Globals.init exactDecimal with g_frequency := 88.5, g_digit := 1 } : Globals).g_frequency
      = ((885 : ℤ) : ℚ) / 10 ∧
    (backButtonPress exactDecimal
      { Globals.init exactDecimal with g_frequency := 88.5, g_digit := 1 }).g_frequency = 87.5 :=
  have h0 : ({ Globals.init exactDecimal with g_frequency := 88.5, g_digit := 1 } :
      Globals).g_frequency = ((885 : ℤ) : ℚ) / 10 := by norm_num
  ⟨h0, by
    have h := (backButtonPress_exactDecimal_clamped
      { Globals.init exactDecimal with g_frequency := 88.5, g_digit := 1 } 885 h0).1
    rw [h]
    norm_num [specStep]⟩

theorem threadFunc_eq (sem : FloatSem) (b : Button) (reads : List ℤ) (g : Globals) :
    b.threadFunc sem reads g
      = reads.foldl (buttonPoll b.store (b.press sem)) (ButtonThread.init, g) := by
  cases b <;> rfl

theorem store_level (b : Button) (x : ℤ) (hx : x = 0 ∨ x = 1) : b.store x = x := by
  rcases hx with rfl | rfl <;> cases b <;> decide

theorem specEdgeAt_append_of_lt (s : List ℤ) (x : ℤ) (i : ℕ) (hi : i < s.length) :
    specEdgeAt (s ++ [x]) i ↔ specEdgeAt s i := by
  unfold specEdgeAt
  rw [List.getD_append _ _ _ _ hi, List.getD_append _ _ _ _ (by omega : i - 1 < s.length)]

theorem specEdgeAt_append_last (s : List ℤ) (x : ℤ) :
    specEdgeAt (s ++ [x]) s.length
      ↔ x = 0 ∧ (if s.length = 0 then (0 : ℤ) else s.getD (s.length - 1) 0) = 1 := by
  unfold specEdgeAt
  rw [List.getD_append_right _ _ _ _ (le_refl _)]
  simp only [Nat.sub_self, List.getD_cons_zero]
  by_cases h : s.length = 0
  · simp [h]
  · rw [if_neg h, List.getD_append _ _ _ _ (by omega : s.length - 1 < s.length)]
    constructor
    · rintro ⟨h1, _, h3⟩; exact ⟨h1, h3⟩
    · rintro ⟨h1, h3⟩; exact ⟨h1, by omega, h3⟩

/-- The state of a polling loop after the levels `s`, all read successfully. -/
theorem buttonPoll_levels (store : ℤ → ℤ) (press : Globals → Globals) (g : Globals)
    (hstore : ∀ x : ℤ, x = 0 ∨ x = 1 → store x = x) (s : List ℤ)
    (hs : ∀ x ∈ s, x = 0 ∨ x = 1) :
    (s.foldl (buttonPoll store press) (ButtonThread.init, g)).1.exited = false ∧
    (s.foldl (buttonPoll store press) (ButtonThread.init, g)).1.tick = s.length ∧
    (s.foldl (buttonPoll store press) (ButtonThread.init, g)).1.lastState
      = (if s.length = 0 then (0 : ℤ) else s.getD (s.length - 1) 0) ∧
    (s.foldl (buttonPoll store press) (ButtonThread.init, g)).1.fired
      = (List.range s.length).filter (fun i => decide (specEdgeAt s i)) ∧
    (s.foldl (buttonPoll store press) (ButtonThread.init, g)).2
      = press^[(s.foldl (buttonPoll store press) (ButtonThread.init, g)).1.fired.length] g := by
  induction s using List.reverseRecOn with
  | nil => simp [ButtonThread.init]
  | append_singleton s x ih =>
    have hs' : ∀ y ∈ s, y = 0 ∨ y = 1 := fun y hy => hs y (List.mem_append_left _ hy)
    have hx : x = 0 ∨ x = 1 := hs x (by simp)
    obtain ⟨h1, h2, h3, h4, h5⟩ := ih hs'
    have hlast : (if s.length = 0 then (0 : ℤ) else s.getD (s.length - 1) 0) = 0 ∨
        (if s.length = 0 then (0 : ℤ) else s.getD (s.length - 1) 0) = 1 := by
      by_cases h : s.length = 0
      · left; rw [if_pos h]
      · rw [if_neg h]
        have hlt : s.length - 1 < s.length := by omega
        rw [List.getD_eq_getElem _ _ hlt]
        exact hs' _ (List.getElem_mem _)
    have hfilter : (List.range (s ++ [x]).length).filter (fun i => decide (specEdgeAt (s ++ [x]) i))
        = (List.range s.length).filter (fun i => decide (specEdgeAt s i))
          ++ (if specEdgeAt (s ++ [x]) s.length then [s.length] else []) := by
      rw [List.length_append, List.length_singleton, List.range_succ, List.filter_append]
      congr 1
      · apply List.filter_congr
        intro i hi
        rw [List.mem_range] at hi
        simp only [decide_eq_decide]
        exact specEdgeAt_append_of_lt s x i hi
      · by_cases he : specEdgeAt (s ++ [x]) s.length
        · simp [he]
        · simp [he]
    rw [List.foldl_append, List.foldl_cons, List.foldl_nil]
    generalize s.foldl (buttonPoll store press) (ButtonThread.init, g) = r at h1 h2 h3 h4 h5
    obtain ⟨t, gl⟩ := r
    simp only at h1 h2 h3 h4 h5
    have hlen : (s ++ [x]).length - 1 = s.length := by simp
    have hne : ¬ (s ++ [x]).length = 0 := by simp
    have hgetx : (s ++ [x]).getD s.length 0 = x := by
      rw [List.getD_append_right _ _ _ _ (le_refl _)]; simp
    rw [hfilter, if_neg hne, hlen, hgetx]
    unfold buttonPoll
    simp only [h1, Bool.false_eq_true, if_false, hstore x hx]
    have hx0 : ¬ x < 0 := by rcases hx with rfl | rfl <;> decide
    rw [if_neg hx0]
    by_cases hfire : x = 0 ∧ t.lastState ≠ 0
    · have hone : (if s.length = 0 then (0 : ℤ) else s.getD (s.length - 1) 0) = 1 := by
        rcases hlast with h | h
        · exact absurd (h3.trans h) hfire.2
        · exact h
      have hedge : specEdgeAt (s ++ [x]) s.length :=
        (specEdgeAt_append_last s x).mpr ⟨hfire.1, hone⟩
      rw [if_pos hfire, if_pos hedge]
      refine ⟨rfl, by simp [h2], rfl, by simp [h2, h4], ?_⟩
      simp only [List.length_append, List.length_singleton, Function.iterate_succ_apply', h5]
    · have hedge : ¬ specEdgeAt (s ++ [x]) s.length := by
        intro he
        obtain ⟨hx0', hl1⟩ := (specEdgeAt_append_last s x).mp he
        apply hfire
        refine ⟨hx0', ?_⟩
        rw [h3, hl1]; decide
      rw [if_neg hfire, if_neg hedge]
      refine ⟨rfl, by simp [h2], rfl, by simp [h4], ?_⟩
      simpa using h5

/-- Claim C8.  For every button loop and every finite sequence `s` of successfully read levels
(each `0` or `1`), started with `lastState = 0`: the loop is still running, the press-completed
branch ran exactly on the ticks `i < s.length` with `s[i] = 0` and `s[i-1] = 1` (none at tick 0),
so never on a tick whose level is pressed, it ran once per such tick, the globals are the result
of that many presses, and the sequence `[0,1,1,1,0]` fires exactly once, on tick 4. -/
theorem debounce_edges (sem : FloatSem) (b : Button) (s : List ℤ) (g : Globals)
    (hs : ∀ x ∈ s, x = 0 ∨ x = 1) :
    (b.threadFunc sem s g).1.exited = false ∧
    (b.threadFunc sem s g).1.fired
      = (List.range s.length).filter (fun i => decide (specEdgeAt s i)) ∧
    (∀ i : ℕ, i ∈ (b.threadFunc sem s g).1.fired ↔ (i < s.length ∧ specEdgeAt s i)) ∧
    (∀ i : ℕ, i ∈ (b.threadFunc sem s g).1.fired → s.getD i 0 = 0) ∧
    (b.threadFunc sem s g).1.fired.Nodup ∧
    (b.threadFunc sem s g).2 = (b.press sem)^[(b.threadFunc sem s g).1.fired.length] g ∧
    (b.threadFunc sem [0, 1, 1, 1, 0] g).1.fired = [4] := by
  have hfive : (b.threadFunc sem [0, 1, 1, 1, 0] g).1.fired = [4] := by
    rw [threadFunc_eq]
    have h := (buttonPoll_levels b.store (b.press sem) g (store_level b) [0, 1, 1, 1, 0]
      (by decide)).2.2.2.1
    rw [h]
    decide
  rw [threadFunc_eq]
  obtain ⟨h1, _, _, h4, h5⟩ := buttonPoll_levels b.store (b.press sem) g (store_level b) s hs
  refine ⟨h1, h4, ?_, ?_, ?_, h5, hfive⟩
  · intro i
    rw [h4, List.mem_filter, List.mem_range, decide_eq_true_eq]
  · intro i hi
    rw [h4, List.mem_filter, decide_eq_true_eq] at hi
    exact hi.2.1
  · rw [h4]
    exact (List.nodup_range _).filter _

/-- Witness for `debounce_edges`: two press-release cycles seen by the commit button. -/
theorem debounce_edges_witness :
    (∀ x ∈ ([0, 1, 0, 0, 1, 1, 0] : List ℤ), x = 0 ∨ x = 1) ∧
    (Button.tune.threadFunc ieee [0, 1, 0, 0, 1, 1, 0] (Globals.init ieee)).1.fired = [2, 6] :=
  ⟨by decide, by
    rw [(debounce_edges ieee Button.tune [0, 1, 0, 0, 1, 1, 0] (Globals.init ieee)
      (by decide)).2.1]
    decide⟩

theorem toUInt8_nonneg (x : ℤ) : ¬ toUInt8 x < 0 := by
  unfold toUInt8
  have := Int.emod_nonneg x (by norm_num : (256 : ℤ) ≠ 0)
  omega

theorem buttonPoll_uint8_running (press : Globals → Globals) (reads : List ℤ)
    (st : ButtonThread × Globals) (h : st.1.exited = false) :
    (reads.foldl (buttonPoll toUInt8 press) st).1.exited = false := by
  induction reads generalizing st with
  | nil => exact h
  | cons x xs ih =>
    rw [List.foldl_cons]
    apply ih
    unfold buttonPoll
    simp only [h, Bool.false_eq_true, if_false, if_neg (toUInt8_nonneg x)]
    split_ifs <;> rfl

/-- Claim C9 (what the code does where the claim fails).  In the four loops whose `isPressed` is a
`uint8_t` the test `isPressed < 0` never succeeds: whatever `GPIO_ReadValue` returns the loop
keeps running; on the reads `-1, 0` the failed read is stored as the level 255 and the next tick
fires the press-completed action.  The audio loop, whose `isPressed` is an `int8_t`, exits on the
failed read and fires nothing. -/
theorem read_failure_not_detected :
    (∀ (sem : FloatSem) (reads : List ℤ) (g : Globals),
      (toggleDigitButtonThreadFunc reads g).1.exited = false ∧
      (backButtonThreadFunc sem reads g).1.exited = false ∧
      (forwardButtonThreadFunc sem reads g).1.exited = false ∧
      (tuneButtonThreadFunc reads g).1.exited = false) ∧
    (toggleDigitButtonThreadFunc [-1] (Globals.init ieee)).1
      = { lastState := 255, exited := false, tick := 1, fired := [] } ∧
    (toggleDigitButtonThreadFunc [-1, 0] (Globals.init ieee)).1
      = { lastState := 0, exited := false, tick := 2, fired := [1] } ∧
    (toggleDigitButtonThreadFunc [-1, 0] (Globals.init ieee)).2.g_digit = 1 ∧
    (backButtonThreadFunc ieee [-1, 0] (Globals.init ieee)).1.fired = [1] ∧
    (forwardButtonThreadFunc ieee [-1, 0] (Globals.init ieee)).1.fired = [1] ∧
    (tuneButtonThreadFunc [-1, 0] (Globals.init ieee)).1.fired = [1] ∧
    (tuneButtonThreadFunc [-1, 0] (Globals.init ieee)).2.g_flag = Flag.TUNE ∧
    (audioButtonThreadFunc [-1, 0] (Globals.init ieee)).1
      = { lastState := 0, exited := true, tick := 0, fired := [] } := by
  refine ⟨?_, by decide, by decide, by decide, by decide, by decide, by decide, by decide,
    by decide⟩
  intro sem reads g
  exact ⟨buttonPoll_uint8_running _ reads _ rfl, buttonPoll_uint8_running _ reads _ rfl,
    buttonPoll_uint8_running _ reads _ rfl, buttonPoll_uint8_running _ reads _ rfl⟩

/-! ## Return values of the driver operations -/

theorem toInt8_of_range (w : ℤ) (h1 : -128 ≤ w) (h2 : w ≤ 127) : toInt8 w = w := by
  unfold toInt8; omega

theorem writeRegisters_status (bus : I2CBus) (accepted : ℤ) (data : List ℕ)
    (h1 : -128 ≤ accepted) (h2 : accepted ≤ 127) :
    statusOf (I2C_WriteRegisters bus accepted data BUFFER_SIZE).1
      = if sysWrite bus accepted = 5 then 0 else -1 := by
  have hr : -128 ≤ sysWrite bus accepted ∧ sysWrite bus accepted ≤ 127 := by
    unfold sysWrite; split_ifs <;> constructor <;> omega
  unfold I2C_WriteRegisters statusOf BUFFER_SIZE
  simp only [toInt8_of_range _ hr.1 hr.2, Nat.cast_ofNat]
  by_cases h5 : sysWrite bus accepted = 5
  · simp [h5]
  · have : sysWrite bus accepted = -1 ∨ sysWrite bus accepted ≠ 5 := Or.inr h5
    simp [h5]

/-- Claim C10.  For a count `accepted` that fits the `int8_t` it is stored in: each of
`TEA5767_SetFrequency`, `TEA5767_Mute`, `TEA5767_Unmute`, `TEA5767_StandbyON` and
`TEA5767_StandbyOFF` returns `-1` if and only if the count reported by the write of the five
bytes is not 5, and returns `0` otherwise. -/
theorem status_iff_write_count (drv : Driver) (bus : I2CBus) (accepted : ℤ) (f : ℚ)
    (h1 : -128 ≤ accepted) (h2 : accepted ≤ 127) :
    ((TEA5767_SetFrequency drv bus accepted f).1
        = if sysWrite bus accepted = 5 then 0 else -1) ∧
    ((TEA5767_Mute drv bus accepted).1 = if sysWrite bus accepted = 5 then 0 else -1) ∧
    ((TEA5767_Unmute drv bus accepted).1 = if sysWrite bus accepted = 5 then 0 else -1) ∧
    ((TEA5767_StandbyON drv bus accepted).1 = if sysWrite bus accepted = 5 then 0 else -1) ∧
    ((TEA5767_StandbyOFF drv bus accepted).1 = if sysWrite bus accepted = 5 then 0 else -1) ∧
    ((TEA5767_SetFrequency drv bus accepted f).1 = -1 ↔ sysWrite bus accepted ≠ 5) ∧
    ((TEA5767_Mute drv bus accepted).1 = -1 ↔ sysWrite bus accepted ≠ 5) ∧
    ((TEA5767_Unmute drv bus accepted).1 = -1 ↔ sysWrite bus accepted ≠ 5) ∧
    ((TEA5767_StandbyON drv bus accepted).1 = -1 ↔ sysWrite bus accepted ≠ 5) ∧
    ((TEA5767_StandbyOFF drv bus accepted).1 = -1 ↔ sysWrite bus accepted ≠ 5) := by
  have a1 : (TEA5767_SetFrequency drv bus accepted f).1
      = if sysWrite bus accepted = 5 then 0 else -1 := writeRegisters_status bus accepted _ h1 h2
  have a2 : (TEA5767_Mute drv bus accepted).1
      = if sysWrite bus accepted = 5 then 0 else -1 := writeRegisters_status bus accepted _ h1 h2
  have a3 : (TEA5767_Unmute drv bus accepted).1
      = if sysWrite bus accepted = 5 then 0 else -1 := writeRegisters_status bus accepted _ h1 h2
  have a4 : (TEA5767_StandbyON drv bus accepted).1
      = if sysWrite bus accepted = 5 then 0 else -1 := writeRegisters_status bus accepted _ h1 h2
  have a5 : (TEA5767_StandbyOFF drv bus accepted).1
      = if sysWrite bus accepted = 5 then 0 else -1 := writeRegisters_status bus accepted _ h1 h2
  have key : ∀ r : ℤ, r = (if sysWrite bus accepted = 5 then 0 else -1) →
      (r = -1 ↔ sysWrite bus accepted ≠ 5) := by
    intro r hr
    rw [hr]
    split_ifs with h <;> simp [h]
  exact ⟨a1, a2, a3, a4, a5, key _ a1, key _ a2, key _ a3, key _ a4, key _ a5⟩

/-- Witness for `status_iff_write_count`: a write that stops after three bytes. -/
theorem status_iff_write_count_witness :
    (-128 : ℤ) ≤ 3 ∧ (3 : ℤ) ≤ 127 ∧
    (TEA5767_SetFrequency Driver.init ⟨true, []⟩ 3 (f32 (f64 94.7))).1 = -1 ∧
    (TEA5767_Mute Driver.init ⟨true, []⟩ 3).1 = -1 :=
  have h := status_iff_write_count Driver.init ⟨true, []⟩ 3 (f32 (f64 94.7)) (by decide)
    (by decide)
  ⟨by decide, by decide, h.2.2.2.2.2.1.mpr (by decide), h.2.2.2.2.2.2.1.mpr (by decide)⟩

/-! ## The register image across driver calls -/

/-- The register image `TEA5767_SetFrequency` builds, whatever the image was before. -/
theorem setFrequency_buffer (drv : Driver) (bus : I2CBus) (accepted : ℤ) (f : ℚ)
    (hlen : drv.writeBuffer.length = 5) :
    (TEA5767_SetFrequency drv bus accepted f).2.1.writeBuffer =
      [(getFrequency drv.clock_frequency f >>> 8) &&& 0x3F,
       if drv.mute_state ≠ 0 then (getFrequency drv.clock_frequency f &&& 0xFF) ||| 0x80
       else getFrequency drv.clock_frequency f &&& 0xFF,
       0x10,
       if drv.standby_mode ≠ 0 then 0x50 else 0x10,
       0x40] := by
  obtain ⟨a, b, c, d, e, hl⟩ := length_five hlen
  by_cases hm : drv.mute_state = 0 <;> by_cases hs : drv.standby_mode = 0 <;>
    simp [TEA5767_SetFrequency, hl, hm, hs, BYTE_1, BYTE_2, BYTE_3, BYTE_4, BYTE_5,
      PLL_MASK_BYTE_1, PLL_MASK_BYTE_2, HI_INJECTION, XTAL_32768HZ, DTC_75US, MUTE_MASK,
      STANDBY_ON_MASK, pll_high_byte, pll_low_byte, pll_low_byte_muted]

theorem setFrequency_flags (drv : Driver) (bus : I2CBus) (accepted : ℤ) (f : ℚ) :
    (TEA5767_SetFrequency drv bus accepted f).2.1.mute_state = drv.mute_state ∧
    (TEA5767_SetFrequency drv bus accepted f).2.1.standby_mode = drv.standby_mode ∧
    (TEA5767_SetFrequency drv bus accepted f).2.1.clock_frequency = drv.clock_frequency := by
  simp [TEA5767_SetFrequency]

theorem setFrequency_length (drv : Driver) (bus : I2CBus) (accepted : ℤ) (f : ℚ)
    (hlen : drv.writeBuffer.length = 5) :
    (TEA5767_SetFrequency drv bus accepted f).2.1.writeBuffer.length = 5 := by
  rw [setFrequency_buffer drv bus accepted f hlen]; rfl

/-- A write of five bytes on an open bus that is accepted in full returns the count. -/
theorem writeRegisters_ok (bus : I2CBus) (data : List ℕ) (hopen : bus.isOpen = true) :
    I2C_WriteRegisters bus 5 data BUFFER_SIZE
      = (5, { bus with written := bus.written ++ [data.take 5] }) := by
  simp [I2C_WriteRegisters, sysWrite, hopen, toInt8, BUFFER_SIZE]

/-- Every call of `I2C_WriteRegisters` hands the first five bytes of the buffer to `write(2)`. -/
theorem writeRegisters_written (bus : I2CBus) (accepted : ℤ) (data : List ℕ) :
    (I2C_WriteRegisters bus accepted data BUFFER_SIZE).2.written
      = bus.written ++ [data.take 5] := by
  unfold I2C_WriteRegisters BUFFER_SIZE I2C_Close
  simp only []
  split_ifs <;> rfl

theorem byte_set_bit7 : ∀ a < 256, ((a ||| 0x80) % 256) &&& 0x80 = 0x80 ∧
    ((a ||| 0x80) % 256) &&& (0xFF ^^^ 0x80) = a &&& (0xFF ^^^ 0x80) := by decide!

theorem byte_clear_bit7 : ∀ a < 256, (a &&& 0x7F) &&& 0x80 = 0 ∧
    (a &&& 0x7F) &&& (0xFF ^^^ 0x80) = a &&& (0xFF ^^^ 0x80) := by decide!

theorem byte_set_bit6 : ∀ a < 256, ((a ||| 0x40) % 256) &&& 0x40 = 0x40 ∧
    ((a ||| 0x40) % 256) &&& (0xFF ^^^ 0x40) = a &&& (0xFF ^^^ 0x40) := by decide!

theorem byte_clear_bit6 : ∀ a < 256, (a &&& 0xBF) &&& 0x40 = 0 ∧
    (a &&& 0xBF) &&& (0xFF ^^^ 0x40) = a &&& (0xFF ^^^ 0x40) := by decide!

theorem sameExceptBits_set0 (a b c d e x : ℕ)
    (h : x &&& (0xFF ^^^ 0x80) = a &&& (0xFF ^^^ 0x80)) :
    sameExceptBits [a, b, c, d, e] [x, b, c, d, e] 0 0x80 := by
  refine ⟨rfl, ?_, by simpa using h⟩
  intro j hj
  rcases j with _ | j
  · exact absurd rfl hj
  · rfl

theorem sameExceptBits_set3 (a b c d e x : ℕ)
    (h : x &&& (0xFF ^^^ 0x40) = d &&& (0xFF ^^^ 0x40)) :
    sameExceptBits [a, b, c, d, e] [a, b, c, x, e] 3 0x40 := by
  refine ⟨rfl, ?_, by simpa using h⟩
  intro j hj
  rcases j with _ | _ | _ | _ | j
  · rfl
  · rfl
  · rfl
  · exact absurd rfl hj
  · rfl

/-- Claim C14.  From every prior driver state (a register image of five bytes, the standby flag
set or not) on an open bus, for all `f1`, `f2`: after `TEA5767_SetFrequency(f1);
TEA5767_StandbyON(); TEA5767_SetFrequency(f2)`, every write accepted in full, the three calls have
returned `0`, `standby_mode` is 1 and bit 6 of byte 3 (mask `0x40`) of the final register image,
which is the payload of the last write, is set; with `TEA5767_StandbyOFF` in place of
`TEA5767_StandbyON`, `standby_mode` is 0 and that bit is clear. -/
theorem standby_bit_survives_retune (drv : Driver) (bus : I2CBus) (f1 f2 : ℚ)
    (hlen : drv.writeBuffer.length = 5) (hopen : bus.isOpen = true) :
    ((tuneStandbyTune true drv bus f1 f2).1.1 = 0 ∧
      (tuneStandbyTune true drv bus f1 f2).2.1.1 = 0 ∧
      (tuneStandbyTune true drv bus f1 f2).2.2.1 = 0 ∧
      (tuneStandbyTune true drv bus f1 f2).2.2.2.1.standby_mode = 1 ∧
      (tuneStandbyTune true drv bus f1 f2).2.2.2.1.writeBuffer.getD 3 0 &&& 0x40 = 0x40 ∧
      (tuneStandbyTune true drv bus f1 f2).2.2.2.2.written.getLast?
        = some (tuneStandbyTune true drv bus f1 f2).2.2.2.1.writeBuffer) ∧
    ((tuneStandbyTune false drv bus f1 f2).1.1 = 0 ∧
      (tuneStandbyTune false drv bus f1 f2).2.1.1 = 0 ∧
      (tuneStandbyTune false drv bus f1 f2).2.2.1 = 0 ∧
      (tuneStandbyTune false drv bus f1 f2).2.2.2.1.standby_mode = 0 ∧
      (tuneStandbyTune false drv bus f1 f2).2.2.2.1.writeBuffer.getD 3 0 &&& 0x40 = 0 ∧
      (tuneStandbyTune false drv bus f1 f2).2.2.2.2.written.getLast?
        = some (tuneStandbyTune false drv bus f1 f2).2.2.2.1.writeBuffer) := by
  have hl1 : (TEA5767_SetFrequency drv bus 5 f1).2.1.writeBuffer.length = 5 :=
    setFrequency_length _ _ _ _ hlen
  have key : ∀ (drv : Driver) (bus : I2CBus), drv.writeBuffer.length = 5 →
      ((TEA5767_SetFrequency drv bus 5 f2).2.1.writeBuffer.getD 3 0 &&& 0x40
        = if drv.standby_mode ≠ 0 then 0x40 else 0) ∧
      (TEA5767_SetFrequency drv bus 5 f2).2.2.written.getLast?
        = some (TEA5767_SetFrequency drv bus 5 f2).2.1.writeBuffer := by
    intro drv bus hlen
    have hlen' := setFrequency_length drv bus 5 f2 hlen
    constructor
    · rw [setFrequency_buffer drv bus 5 f2 hlen]
      by_cases hs : drv.standby_mode = 0 <;> simp [hs] <;> decide
    · have hw : (TEA5767_SetFrequency drv bus 5 f2).2.2.written
          = bus.written ++ [(TEA5767_SetFrequency drv bus 5 f2).2.1.writeBuffer.take 5] :=
        writeRegisters_written bus 5 _
      rw [hw, List.getLast?_append, List.take_of_length_le (le_of_eq hlen')]
      rfl
  unfold tuneStandbyTune
  simp only [if_true, Bool.false_eq_true, if_false]
  refine ⟨⟨?_, ?_, ?_, ?_, ?_, ?_⟩, ⟨?_, ?_, ?_, ?_, ?_, ?_⟩⟩
  · simp [TEA5767_SetFrequency, I2C_WriteRegisters, sysWrite, toInt8, statusOf, BUFFER_SIZE,
      hopen]
  · simp [TEA5767_StandbyON, TEA5767_SetFrequency, I2C_WriteRegisters, sysWrite, toInt8,
      statusOf, BUFFER_SIZE, hopen]
  · simp [TEA5767_StandbyON, TEA5767_SetFrequency, I2C_WriteRegisters, sysWrite, toInt8,
      statusOf, BUFFER_SIZE, hopen]
  · simp [TEA5767_StandbyON, TEA5767_SetFrequency]
  · rw [(key _ _ (by simp [TEA5767_StandbyON, hl1])).1]
    simp [TEA5767_StandbyON]
  · exact (key _ _ (by simp [TEA5767_StandbyON, hl1])).2
  · simp [TEA5767_SetFrequency, I2C_WriteRegisters, sysWrite, toInt8, statusOf, BUFFER_SIZE,
      hopen]
  · simp [TEA5767_StandbyOFF, TEA5767_SetFrequency, I2C_WriteRegisters, sysWrite, toInt8,
      statusOf, BUFFER_SIZE, hopen]
  · simp [TEA5767_StandbyOFF, TEA5767_SetFrequency, I2C_WriteRegisters, sysWrite, toInt8,
      statusOf, BUFFER_SIZE, hopen]
  · simp [TEA5767_StandbyOFF, TEA5767_SetFrequency]
  · rw [(key _ _ (by simp [TEA5767_StandbyOFF, hl1])).1]
    simp [TEA5767_StandbyOFF]
  · exact (key _ _ (by simp [TEA5767_StandbyOFF, hl1])).2

/-- Witness for `standby_bit_survives_retune`: the prior state is the one left by
`TEA5767_StandbyON` on the initialised device, so the standby flag and bit 6 of byte 3 are set
before the sequence; with `TEA5767_StandbyOFF` in the middle the bit ends clear, with
`TEA5767_StandbyON` it ends set. -/
theorem standby_bit_survives_retune_witness :
    (TEA5767_StandbyON deviceAfterInit.2.1 deviceAfterInit.2.2 5).2.1.writeBuffer.length = 5 ∧
    (TEA5767_StandbyON deviceAfterInit.2.1 deviceAfterInit.2.2 5).2.2.isOpen = true ∧
    (TEA5767_StandbyON deviceAfterInit.2.1 deviceAfterInit.2.2 5).2.1.standby_mode = 1 ∧
    (TEA5767_StandbyON deviceAfterInit.2.1 deviceAfterInit.2.2 5).2.1.writeBuffer.getD 3 0
      &&& 0x40 = 0x40 ∧
    (tuneStandbyTune false (TEA5767_StandbyON deviceAfterInit.2.1 deviceAfterInit.2.2 5).2.1
      (TEA5767_StandbyON deviceAfterInit.2.1 deviceAfterInit.2.2 5).2.2
      94.7 95).2.2.2.1.writeBuffer.getD 3 0 &&& 0x40 = 0 ∧
    (tuneStandbyTune true (TEA5767_StandbyON deviceAfterInit.2.1 deviceAfterInit.2.2 5).2.1
      (TEA5767_StandbyON deviceAfterInit.2.1 deviceAfterInit.2.2 5).2.2
      94.7 95).2.2.2.1.writeBuffer.getD 3 0 &&& 0x40 = 0x40 :=
  have h1 : (TEA5767_StandbyON deviceAfterInit.2.1 deviceAfterInit.2.2 5).2.1.writeBuffer.length
      = 5 := by decide!
  have h2 : (TEA5767_StandbyON deviceAfterInit.2.1 deviceAfterInit.2.2 5).2.2.isOpen = true := by
    decide!
  have h := standby_bit_survives_retune
    (TEA5767_StandbyON deviceAfterInit.2.1 deviceAfterInit.2.2 5).2.1
    (TEA5767_StandbyON deviceAfterInit.2.1 deviceAfterInit.2.2 5).2.2 94.7 95 h1 h2
  ⟨h1, h2, by decide!, by decide!, h.2.2.2.2.2.1, h.1.2.2.2.2.1⟩

/-- Claim C15.  For every prior register image (five bytes): `TEA5767_Mute` sets bit 7 of byte 0
and `TEA5767_Unmute` clears it, `TEA5767_StandbyON` sets bit 6 of byte 3 and `TEA5767_StandbyOFF`
clears it; each leaves the other four bytes and the other seven bits of the byte it touches as
they were, and hands the whole five-byte image to the transport write. -/
theorem flag_operations_frame (drv : Driver) (bus : I2CBus) (accepted : ℤ)
    (hlen : drv.writeBuffer.length = 5) (hbytes : ∀ b ∈ drv.writeBuffer, b < 256) :
    ((TEA5767_Mute drv bus accepted).2.1.writeBuffer.getD 0 0 &&& 0x80 = 0x80 ∧
      sameExceptBits drv.writeBuffer (TEA5767_Mute drv bus accepted).2.1.writeBuffer 0 0x80 ∧
      (TEA5767_Mute drv bus accepted).2.2.written
        = bus.written ++ [(TEA5767_Mute drv bus accepted).2.1.writeBuffer]) ∧
    ((TEA5767_Unmute drv bus accepted).2.1.writeBuffer.getD 0 0 &&& 0x80 = 0 ∧
      sameExceptBits drv.writeBuffer (TEA5767_Unmute drv bus accepted).2.1.writeBuffer 0 0x80 ∧
      (TEA5767_Unmute drv bus accepted).2.2.written
        = bus.written ++ [(TEA5767_Unmute drv bus accepted).2.1.writeBuffer]) ∧
    ((TEA5767_StandbyON drv bus accepted).2.1.writeBuffer.getD 3 0 &&& 0x40 = 0x40 ∧
      sameExceptBits drv.writeBuffer (TEA5767_StandbyON drv bus accepted).2.1.writeBuffer 3 0x40 ∧
      (TEA5767_StandbyON drv bus accepted).2.2.written
        = bus.written ++ [(TEA5767_StandbyON drv bus accepted).2.1.writeBuffer]) ∧
    ((TEA5767_StandbyOFF drv bus accepted).2.1.writeBuffer.getD 3 0 &&& 0x40 = 0 ∧
      sameExceptBits drv.writeBuffer (TEA5767_StandbyOFF drv bus accepted).2.1.writeBuffer 3 0x40 ∧
      (TEA5767_StandbyOFF drv bus accepted).2.2.written
        = bus.written ++ [(TEA5767_StandbyOFF drv bus accepted).2.1.writeBuffer]) := by
  obtain ⟨a, b, c, d, e, hl⟩ := length_five hlen
  have ha : a < 256 := hbytes a (by simp [hl])
  have hd : d < 256 := hbytes d (by simp [hl])
  have m1 : (TEA5767_Mute drv bus accepted).2.1.writeBuffer
      = [(a ||| 0x80) % 256, b, c, d, e] := by
    simp [TEA5767_Mute, hl, BYTE_1, MUTE_MASK]
  have m2 : (TEA5767_Unmute drv bus accepted).2.1.writeBuffer = [a &&& 0x7F, b, c, d, e] := by
    simp [TEA5767_Unmute, hl, BYTE_1, UNMUTE_MASK]
  have m3 : (TEA5767_StandbyON drv bus accepted).2.1.writeBuffer
      = [a, b, c, (d ||| 0x40) % 256, e] := by
    simp [TEA5767_StandbyON, hl, BYTE_4, STANDBY_ON_MASK]
  have m4 : (TEA5767_StandbyOFF drv bus accepted).2.1.writeBuffer
      = [a, b, c, d &&& 0xBF, e] := by
    simp [TEA5767_StandbyOFF, hl, BYTE_4, STANDBY_OFF_MASK]
  have w1 : (TEA5767_Mute drv bus accepted).2.2.written
      = bus.written ++ [(TEA5767_Mute drv bus accepted).2.1.writeBuffer.take 5] :=
    writeRegisters_written bus accepted _
  have w2 : (TEA5767_Unmute drv bus accepted).2.2.written
      = bus.written ++ [(TEA5767_Unmute drv bus accepted).2.1.writeBuffer.take 5] :=
    writeRegisters_written bus accepted _
  have w3 : (TEA5767_StandbyON drv bus accepted).2.2.written
      = bus.written ++ [(TEA5767_StandbyON drv bus accepted).2.1.writeBuffer.take 5] :=
    writeRegisters_written bus accepted _
  have w4 : (TEA5767_StandbyOFF drv bus accepted).2.2.written
      = bus.written ++ [(TEA5767_StandbyOFF drv bus accepted).2.1.writeBuffer.take 5] :=
    writeRegisters_written bus accepted _
  rw [w1, w2, w3, w4, m1, m2, m3, m4, hl]
  refine ⟨⟨?_, ?_, rfl⟩, ⟨?_, ?_, rfl⟩, ⟨?_, ?_, rfl⟩, ⟨?_, ?_, rfl⟩⟩
  · exact (byte_set_bit7 a ha).1
  · exact sameExceptBits_set0 a b c d e _ (byte_set_bit7 a ha).2
  · exact (byte_clear_bit7 a ha).1
  · exact sameExceptBits_set0 a b c d e _ (byte_clear_bit7 a ha).2
  · exact (byte_set_bit6 d hd).1
  · exact sameExceptBits_set3 a b c d e _ (byte_set_bit6 d hd).2
  · exact (byte_clear_bit6 d hd).1
  · exact sameExceptBits_set3 a b c d e _ (byte_clear_bit6 d hd).2

/-- Witness for `flag_operations_frame`: muting the image left by `TEA5767_Init`, with a write
that the bus refuses. -/
theorem flag_operations_frame_witness :
    deviceAfterInit.2.1.writeBuffer.length = 5 ∧
    (∀ b ∈ deviceAfterInit.2.1.writeBuffer, b < 256) ∧
    (TEA5767_Mute deviceAfterInit.2.1 deviceAfterInit.2.2 (-1)).2.1.writeBuffer.getD 0 0 &&& 0x80
      = 0x80 ∧
    sameExceptBits deviceAfterInit.2.1.writeBuffer
      (TEA5767_Mute deviceAfterInit.2.1 deviceAfterInit.2.2 (-1)).2.1.writeBuffer 0 0x80 ∧
    (TEA5767_Mute deviceAfterInit.2.1 deviceAfterInit.2.2 (-1)).2.1.writeBuffer
      = [0xAD, 0x47, 0x10, 0x10, 0x40] :=
  have h1 : deviceAfterInit.2.1.writeBuffer.length = 5 := by decide!
  have h2 : ∀ b ∈ deviceAfterInit.2.1.writeBuffer, b < 256 := by decide!
  have h := (flag_operations_frame deviceAfterInit.2.1 deviceAfterInit.2.2 (-1) h1 h2).1
  ⟨h1, h2, h.1, h.2.1, by decide!⟩

/-- Claim C16.  The register image `TEA5767_SetFrequency(f)` produces depends only on `f`,
`mute_state`, `standby_mode` and `clock_frequency`: two driver states that agree on the three
variables give the same image, whatever their previous images, buses and write results; and two
calls in a row hand two identical five-byte buffers to the transport write. -/
theorem setFrequency_image_function (drv drv' : Driver) (bus bus' : I2CBus)
    (accepted accepted' : ℤ) (f : ℚ)
    (hlen : drv.writeBuffer.length = 5) (hlen' : drv'.writeBuffer.length = 5)
    (hm : drv.mute_state = drv'.mute_state) (hs : drv.standby_mode = drv'.standby_mode)
    (hc : drv.clock_frequency = drv'.clock_frequency) :
    (TEA5767_SetFrequency drv bus accepted f).2.1.writeBuffer
      = (TEA5767_SetFrequency drv' bus' accepted' f).2.1.writeBuffer ∧
    (tuneTwice drv bus accepted accepted' f).2.1.writeBuffer
      = (TEA5767_SetFrequency drv bus accepted f).2.1.writeBuffer ∧
    (tuneTwice drv bus accepted accepted' f).2.2.written
      = bus.written ++ [(TEA5767_SetFrequency drv bus accepted f).2.1.writeBuffer,
          (TEA5767_SetFrequency drv bus accepted f).2.1.writeBuffer] := by
  have hfl := setFrequency_flags drv bus accepted f
  have hl1 := setFrequency_length drv bus accepted f hlen
  have e1 : (TEA5767_SetFrequency drv bus accepted f).2.1.writeBuffer
      = (TEA5767_SetFrequency drv' bus' accepted' f).2.1.writeBuffer := by
    rw [setFrequency_buffer drv bus accepted f hlen, setFrequency_buffer drv' bus' accepted' f hlen',
      hm, hs, hc]
  have e2 : (tuneTwice drv bus accepted accepted' f).2.1.writeBuffer
      = (TEA5767_SetFrequency drv bus accepted f).2.1.writeBuffer := by
    unfold tuneTwice
    simp only []
    rw [setFrequency_buffer _ _ accepted' f hl1, setFrequency_buffer drv bus accepted f hlen,
      hfl.1, hfl.2.1, hfl.2.2]
  refine ⟨e1, e2, ?_⟩
  have w1 : (TEA5767_SetFrequency drv bus accepted f).2.2.written
      = bus.written ++ [(TEA5767_SetFrequency drv bus accepted f).2.1.writeBuffer.take 5] :=
    writeRegisters_written bus accepted _
  have w2 : (tuneTwice drv bus accepted accepted' f).2.2.written
      = (TEA5767_SetFrequency drv bus accepted f).2.2.written
        ++ [(tuneTwice drv bus accepted accepted' f).2.1.writeBuffer.take 5] :=
    writeRegisters_written _ accepted' _
  rw [w2, w1, e2, List.take_of_length_le (le_of_eq hl1)]
  simp

/-- Witness for `setFrequency_image_function`: the initial driver state and the state left by
`TEA5767_Init`, tuned to 95.0 MHz. -/
theorem setFrequency_image_function_witness :
    Driver.init.writeBuffer.length = 5 ∧ deviceAfterInit.2.1.writeBuffer.length = 5 ∧
    Driver.init.writeBuffer ≠ deviceAfterInit.2.1.writeBuffer ∧
    (TEA5767_SetFrequency Driver.init ⟨true, []⟩ 5 95).2.1.writeBuffer
      = (TEA5767_SetFrequency deviceAfterInit.2.1 deviceAfterInit.2.2 3 95).2.1.writeBuffer :=
  have h1 : Driver.init.writeBuffer.length = 5 := by decide
  have h2 : deviceAfterInit.2.1.writeBuffer.length = 5 := by decide!
  ⟨h1, h2, by decide!,
    (setFrequency_image_function Driver.init deviceAfterInit.2.1 ⟨true, []⟩ deviceAfterInit.2.2
      5 3 95 h1 h2 (by decide!) (by decide!) (by decide!)).1⟩

/-! ## The dispatcher -/

/-- A driver operation that returns `-1` has left the bus closed. -/
theorem writeRegisters_failed_closes (bus : I2CBus) (accepted : ℤ) (data : List ℕ)
    (h : statusOf (I2C_WriteRegisters bus accepted data BUFFER_SIZE).1 = -1) :
    (I2C_WriteRegisters bus accepted data BUFFER_SIZE).2.isOpen = false := by
  unfold I2C_WriteRegisters at h ⊢
  simp only [] at h ⊢
  split_ifs at h ⊢ with hc
  · rfl
  · exfalso
    push_neg at hc
    rw [hc.2] at h
    simp [statusOf, BUFFER_SIZE] at h

theorem driverOp_failed_closes (op : DriverOp) (drv : Driver) (bus : I2CBus) (accepted : ℤ)
    (h : (op.run drv bus accepted).1 = -1) : (op.run drv bus accepted).2.2.isOpen = false := by
  cases op <;> exact writeRegisters_failed_closes bus accepted _ h

/-- On a closed bus the write reports `-1`, whatever the device would accept. -/
theorem writeRegisters_closed (bus : I2CBus) (accepted : ℤ) (data : List ℕ)
    (h : bus.isOpen = false) :
    statusOf (I2C_WriteRegisters bus accepted data BUFFER_SIZE).1 = -1 ∧
    (I2C_WriteRegisters bus accepted data BUFFER_SIZE).2.isOpen = false := by
  simp [I2C_WriteRegisters, sysWrite, h, toInt8, statusOf, I2C_Close]

theorem driverOp_closed (op : DriverOp) (drv : Driver) (bus : I2CBus) (accepted : ℤ)
    (h : bus.isOpen = false) :
    (op.run drv bus accepted).1 = -1 ∧ (op.run drv bus accepted).2.2.isOpen = false := by
  cases op <;> exact writeRegisters_closed bus accepted _ h

/-- The pass of the dispatcher loop in terms of the driver operation it calls. -/
theorem fmThreadIteration_eq (g : Globals) (drv : Driver) (bus : I2CBus) (accepted : ℤ)
    (h : g.g_flag = Flag.TUNE ∨ g.g_flag = Flag.AUDIO) :
    ∃ d : Dispatch, fmThreadIteration g drv bus accepted = some d ∧
      d.g = { g with g_flag := Flag.WAIT, g_lcd_update := 1 } ∧
      (d.status, d.drv, d.bus)
        = (if g.g_flag = Flag.TUNE then DriverOp.setFrequency g.g_frequency
           else if g.g_audio = 0 then DriverOp.mute else DriverOp.unmute).run drv bus accepted ∧
      d.trace.count ThreadEvent.deviceCall = 1 := by
  unfold fmThreadIteration
  rcases h with h | h
  · rw [h]
    exact ⟨_, rfl, rfl, by simp [DriverOp.run], by simp [List.count_cons]⟩
  · rw [h]
    refine ⟨_, rfl, rfl, ?_, by simp [List.count_cons]⟩
    by_cases ha : g.g_audio = 0 <;> simp [ha, DriverOp.run]

/-- Claim C11 (counterexample).  `TEA5767_Mute` on an open bus with a write that stops after
three bytes returns `-1` and leaves the bus closed; the tune command dispatched next returns `-1`
although the device would accept all five bytes. -/
theorem failed_write_closes_bus :
    (DriverOp.mute.run Driver.init ⟨true, []⟩ 3).1 = -1 ∧
    (DriverOp.mute.run Driver.init ⟨true, []⟩ 3).2.2.isOpen = false ∧
    Option.map Dispatch.status
      (dispatchAfter DriverOp.mute Driver.init ⟨true, []⟩ 3
        { Globals.init ieee with g_flag := Flag.TUNE } 5) = some (-1) := by
  refine ⟨by decide, by decide, by decide!⟩

/-- Claim C11 (amended).  After any of the five driver operations has returned `-1`, the bus is
closed; the next command the dispatcher handles still completes its pass (`g_flag = WAIT`,
`g_lcd_update = 1`), but its write is issued on the closed bus and the operation returns `-1`
whatever the device would accept. -/
theorem failed_write_then_dispatch (op : DriverOp) (drv : Driver) (bus : I2CBus)
    (accepted1 accepted2 : ℤ) (g : Globals)
    (hfail : (op.run drv bus accepted1).1 = -1)
    (hflag : g.g_flag = Flag.TUNE ∨ g.g_flag = Flag.AUDIO) :
    (op.run drv bus accepted1).2.2.isOpen = false ∧
    ∃ d : Dispatch, dispatchAfter op drv bus accepted1 g accepted2 = some d ∧
      d.status = -1 ∧ d.bus.isOpen = false ∧
      d.g.g_flag = Flag.WAIT ∧ d.g.g_lcd_update = 1 := by
  have hclosed := driverOp_failed_closes op drv bus accepted1 hfail
  refine ⟨hclosed, ?_⟩
  obtain ⟨d, hd, hg, hop, _⟩ := fmThreadIteration_eq g (op.run drv bus accepted1).2.1
    (op.run drv bus accepted1).2.2 accepted2 hflag
  have hnext := driverOp_closed
    (if g.g_flag = Flag.TUNE then DriverOp.setFrequency g.g_frequency
      else if g.g_audio = 0 then DriverOp.mute else DriverOp.unmute)
    (op.run drv bus accepted1).2.1 (op.run drv bus accepted1).2.2 accepted2 hclosed
  rw [← hop] at hnext
  exact ⟨d, hd, hnext.1, hnext.2, by rw [hg], by rw [hg]⟩

/-- Witness for `failed_write_then_dispatch`: a failed `TEA5767_SetFrequency`, then an audio
command. -/
theorem failed_write_then_dispatch_witness :
    ((DriverOp.setFrequency 95).run Driver.init ⟨true, []⟩ (-1)).1 = -1 ∧
    ((DriverOp.setFrequency 95).run Driver.init ⟨true, []⟩ (-1)).2.2.isOpen = false ∧
    ∃ d : Dispatch, dispatchAfter (DriverOp.setFrequency 95) Driver.init ⟨true, []⟩ (-1)
        (audioButtonPress (Globals.init ieee)) 5 = some d ∧
      d.status = -1 ∧ d.bus.isOpen = false ∧
      d.g.g_flag = Flag.WAIT ∧ d.g.g_lcd_update = 1 :=
  have h1 : ((DriverOp.setFrequency 95).run Driver.init ⟨true, []⟩ (-1)).1 = -1 := by
    simp [DriverOp.run, TEA5767_SetFrequency, I2C_WriteRegisters, sysWrite, toInt8, statusOf]
  have h := failed_write_then_dispatch (DriverOp.setFrequency 95) Driver.init ⟨true, []⟩ (-1) 5
    (audioButtonPress (Globals.init ieee)) h1 (Or.inr rfl)
  ⟨h1, h.1, h.2⟩

/-- Claim C12.  One pass of the dispatcher loop started with `g_flag` equal to `TUNE` or `AUDIO`
takes place and ends with `g_flag = WAIT` and `g_lcd_update = 1`, whatever count the transport
reports, so whether the driver operation succeeded or failed; the other globals are unchanged. -/
theorem dispatch_ends_idle (g : Globals) (drv : Driver) (bus : I2CBus) (accepted : ℤ)
    (h : g.g_flag = Flag.TUNE ∨ g.g_flag = Flag.AUDIO) :
    ∃ d : Dispatch, fmThreadIteration g drv bus accepted = some d ∧
      d.g.g_flag = Flag.WAIT ∧ d.g.g_lcd_update = 1 ∧
      d.g.g_frequency = g.g_frequency ∧ d.g.g_audio = g.g_audio ∧ d.g.g_digit = g.g_digit := by
  obtain ⟨d, hd, hg, _, _⟩ := fmThreadIteration_eq g drv bus accepted h
  exact ⟨d, hd, by rw [hg], by rw [hg], by rw [hg], by rw [hg], by rw [hg]⟩

/-- Witness for `dispatch_ends_idle`: a tune command whose write fails. -/
theorem dispatch_ends_idle_witness :
    (tuneButtonPress (Globals.init ieee)).g_flag = Flag.TUNE ∧
    ∃ d : Dispatch, fmThreadIteration (tuneButtonPress (Globals.init ieee)) Driver.init
        ⟨true, []⟩ (-1) = some d ∧
      d.g.g_flag = Flag.WAIT ∧ d.g.g_lcd_update = 1 ∧
      d.g.g_frequency = (tuneButtonPress (Globals.init ieee)).g_frequency ∧
      d.g.g_audio = (tuneButtonPress (Globals.init ieee)).g_audio ∧
      d.g.g_digit = (tuneButtonPress (Globals.init ieee)).g_digit :=
  ⟨rfl, dispatch_ends_idle (tuneButtonPress (Globals.init ieee)) Driver.init ⟨true, []⟩ (-1)
    (Or.inl rfl)⟩

/-- Claim C13.  One pass of the dispatcher loop with a pending command performs exactly one
driver operation: `TEA5767_SetFrequency` with the current `g_frequency` for `TUNE`, and for
`AUDIO` `TEA5767_Mute` when `g_audio = 0` and `TEA5767_Unmute` otherwise; the driver variables,
the bus and the status after the pass are those of that one call, one payload was handed to the
transport, and after an `AUDIO` command `mute_state` is 1 exactly when `g_audio = 0`. -/
theorem dispatch_one_operation (g : Globals) (drv : Driver) (bus : I2CBus) (accepted : ℤ)
    (h : g.g_flag = Flag.TUNE ∨ g.g_flag = Flag.AUDIO) :
    ∃ d : Dispatch, fmThreadIteration g drv bus accepted = some d ∧
      (d.status, d.drv, d.bus)
        = (if g.g_flag = Flag.TUNE then TEA5767_SetFrequency drv bus accepted g.g_frequency
           else if g.g_audio = 0 then TEA5767_Mute drv bus accepted
           else TEA5767_Unmute drv bus accepted) ∧
      d.trace.count ThreadEvent.deviceCall = 1 ∧
      d.bus.written.length = bus.written.length + 1 ∧
      (g.g_flag = Flag.TUNE ∨ (d.drv.mute_state = 1 ↔ g.g_audio = 0)) := by
  obtain ⟨d, hd, _, hop, htr⟩ := fmThreadIteration_eq g drv bus accepted h
  have hop' : (d.status, d.drv, d.bus)
      = (if g.g_flag = Flag.TUNE then TEA5767_SetFrequency drv bus accepted g.g_frequency
         else if g.g_audio = 0 then TEA5767_Mute drv bus accepted
         else TEA5767_Unmute drv bus accepted) := by
    rw [hop]
    split_ifs <;> rfl
  have hdrv : d.drv = (if g.g_flag = Flag.TUNE
      then TEA5767_SetFrequency drv bus accepted g.g_frequency
      else if g.g_audio = 0 then TEA5767_Mute drv bus accepted
      else TEA5767_Unmute drv bus accepted).2.1 := by rw [← hop']
  have hbus : d.bus = (if g.g_flag = Flag.TUNE
      then TEA5767_SetFrequency drv bus accepted g.g_frequency
      else if g.g_audio = 0 then TEA5767_Mute drv bus accepted
      else TEA5767_Unmute drv bus accepted).2.2 := by rw [← hop']
  refine ⟨d, hd, hop', htr, ?_, ?_⟩
  · rw [hbus]
    split_ifs
    · rw [show (TEA5767_SetFrequency drv bus accepted g.g_frequency).2.2.written = _ from
        writeRegisters_written bus accepted _]
      simp
    · rw [show (TEA5767_Mute drv bus accepted).2.2.written = _ from
        writeRegisters_written bus accepted _]
      simp
    · rw [show (TEA5767_Unmute drv bus accepted).2.2.written = _ from
        writeRegisters_written bus accepted _]
      simp
  · by_cases ht : g.g_flag = Flag.TUNE
    · exact Or.inl ht
    · right
      rw [hdrv, if_neg ht]
      by_cases ha : g.g_audio = 0
      · simp [ha, TEA5767_Mute]
      · simp [ha, TEA5767_Unmute]

/-- Witness for `dispatch_one_operation`: the audio command after one press of the audio button
from the initial state. -/
theorem dispatch_one_operation_witness :
    (audioButtonPress (Globals.init ieee)).g_flag = Flag.AUDIO ∧
    ∃ d : Dispatch, fmThreadIteration (audioButtonPress (Globals.init ieee))
        deviceAfterInit.2.1 deviceAfterInit.2.2 5 = some d ∧
      (d.status, d.drv, d.bus)
        = (if (audioButtonPress (Globals.init ieee)).g_flag = Flag.TUNE
            then TEA5767_SetFrequency deviceAfterInit.2.1 deviceAfterInit.2.2 5
              (audioButtonPress (Globals.init ieee)).g_frequency
           else if (audioButtonPress (Globals.init ieee)).g_audio = 0
            then TEA5767_Mute deviceAfterInit.2.1 deviceAfterInit.2.2 5
           else TEA5767_Unmute deviceAfterInit.2.1 deviceAfterInit.2.2 5) ∧
      d.trace.count ThreadEvent.deviceCall = 1 ∧
      d.bus.written.length = deviceAfterInit.2.2.written.length + 1 ∧
      ((audioButtonPress (Globals.init ieee)).g_flag = Flag.TUNE ∨
        (d.drv.mute_state = 1 ↔ (audioButtonPress (Globals.init ieee)).g_audio = 0)) :=
  ⟨rfl, dispatch_one_operation (audioButtonPress (Globals.init ieee)) deviceAfterInit.2.1
    deviceAfterInit.2.2 5 (Or.inr rfl)⟩

/-! ## Start-up and the two scenarios -/

/-- Claim C17 (what the code does where the claim fails).  `TEA5767_Init` succeeds and leaves the
image `2D 47 10 10 40`, whose PLL word 11591 is the word of the literal 94.73 it tunes to, while
the shared state starts at `DEFAULT_FREQ = 94.7`, whose word is 11587. -/
theorem init_tunes_to_other_frequency :
    deviceAfterInit.1 = 0 ∧
    deviceAfterInit.2.1.writeBuffer = [0x2D, 0x47, 0x10, 0x10, 0x40] ∧
    deviceAfterInit.2.2.written = [[0x2D, 0x47, 0x10, 0x10, 0x40]] ∧
    imagePLL deviceAfterInit.2.1.writeBuffer = 11591 ∧
    getFrequency 32768 (f32 (f64 94.73)) = 11591 ∧
    (Globals.init ieee).g_frequency = f32 (f64 94.7) ∧
    displayFrequencyTenths (Globals.init ieee) = 947 ∧
    getFrequency 32768 (Globals.init ieee).g_frequency = 11587 ∧
    getFrequency 32768 (Globals.init exactDecimal).g_frequency = 11587 ∧
    imagePLL deviceAfterInit.2.1.writeBuffer
      ≠ getFrequency 32768 (Globals.init ieee).g_frequency := by
  refine ⟨by decide!, by decide!, by decide!, by decide!, by decide!, rfl, by decide!,
    by decide!, by decide!, by decide!⟩

/-- Claim C18.  From the initial state (94.7 MHz, audio on, tenths digit, device initialised)
three completed presses of the increase button stage 95.0 (exactly with decimal frequencies; the
`float` value is 12451839/131072, printed as 95.0); a press of the commit button sets
`g_flag = TUNE`; the dispatcher pass then writes the image `2D 68 10 10 40`, whose PLL word is
11624, the rounded quotient of the specification, with `g_audio` still 1 and the audio text ON. -/
theorem tune_scenario :
    (runPresses exactDecimal [.increase, .increase, .increase]
      (Globals.init exactDecimal)).g_frequency = 95 ∧
    (runPresses ieee [.increase, .increase, .increase] (Globals.init ieee)).g_frequency
      = 12451839 / 131072 ∧
    displayFrequencyTenths
      (runPresses ieee [.increase, .increase, .increase] (Globals.init ieee)) = 950 ∧
    (tuneButtonPress
      (runPresses ieee [.increase, .increase, .increase] (Globals.init ieee))).g_flag
        = Flag.TUNE ∧
    specRoundedPLL 95 32768 = 11624 ∧
    Option.map (fun d => d.drv.writeBuffer) (tuneScenario ieee)
      = some [0x2D, 0x68, 0x10, 0x10, 0x40] ∧
    Option.map (fun d => d.bus.written.getLast?) (tuneScenario ieee)
      = some (some [0x2D, 0x68, 0x10, 0x10, 0x40]) ∧
    Option.map (fun d => imagePLL d.drv.writeBuffer) (tuneScenario ieee) = some 11624 ∧
    Option.map (fun d => d.status) (tuneScenario ieee) = some 0 ∧
    Option.map (fun d => d.g.g_audio) (tuneScenario ieee) = some 1 ∧
    Option.map (fun d => displayAudioText d.g) (tuneScenario ieee) = some "ON" ∧
    Option.map (fun d => displayFrequencyTenths d.g) (tuneScenario ieee) = some 950 ∧
    Option.map (fun d => d.drv.writeBuffer) (tuneScenario exactDecimal)
      = some [0x2D, 0x68, 0x10, 0x10, 0x40] ∧
    Option.map (fun d => displayAudioText d.g) (tuneScenario exactDecimal) = some "ON" := by
  refine ⟨by decide!, by decide!, by decide!, by decide!, by decide!, by decide!, by decide!,
    by decide!, by decide!, by decide!, by decide!, by decide!, by decide!, by decide!⟩

/-- Claim C19.  From the initial state with the device tuned and unmuted, one completed press of
the audio button sets `g_audio = 0` and `g_flag = AUDIO`; the dispatcher pass mutes: bit 7 of
byte 0 of the image is set, `mute_state = 1`, `g_flag = WAIT`, and the audio text is MUTED; a
second press and pass restore `g_audio = 1` and clear the bit. -/
theorem audio_scenario :
    deviceAfterInit.2.1.writeBuffer.getD 0 0 &&& 0x80 = 0 ∧
    (audioButtonPress (Globals.init ieee)).g_audio = 0 ∧
    (audioButtonPress (Globals.init ieee)).g_flag = Flag.AUDIO ∧
    Option.map (fun p => p.1.drv) (audioScenario ieee)
      = some (TEA5767_Mute deviceAfterInit.2.1 deviceAfterInit.2.2 5).2.1 ∧
    Option.map (fun p => p.1.drv.writeBuffer.getD 0 0 &&& 0x80) (audioScenario ieee)
      = some 0x80 ∧
    Option.map (fun p => p.1.drv.mute_state) (audioScenario ieee) = some 1 ∧
    Option.map (fun p => p.1.bus.written.getLast?) (audioScenario ieee)
      = some (some [0xAD, 0x47, 0x10, 0x10, 0x40]) ∧
    Option.map (fun p => p.1.g.g_flag) (audioScenario ieee) = some Flag.WAIT ∧
    Option.map (fun p => p.1.g.g_audio) (audioScenario ieee) = some 0 ∧
    Option.map (fun p => displayAudioText p.1.g) (audioScenario ieee) = some "MUTED" ∧
    Option.map (fun p => p.2.g.g_audio) (audioScenario ieee) = some 1 ∧
    Option.map (fun p => p.2.g.g_flag) (audioScenario ieee) = some Flag.WAIT ∧
    Option.map (fun p => p.2.drv.writeBuffer.getD 0 0 &&& 0x80) (audioScenario ieee) = some 0 ∧
    Option.map (fun p => p.2.drv.mute_state) (audioScenario ieee) = some 0 ∧
    Option.map (fun p => p.2.drv.writeBuffer) (audioScenario ieee)
      = some deviceAfterInit.2.1.writeBuffer ∧
    Option.map (fun p => displayAudioText p.2.g) (audioScenario ieee) = some "ON" := by
  refine ⟨by decide!, by decide!, by decide!, by decide!, by decide!, by decide!, by decide!,
    by decide!, by decide!, by decide!, by decide!, by decide!, by decide!, by decide!,
    by decide!, by decide!⟩

theorem fmThreadIteration_isSome (g g' : Globals) (drv : Driver) (bus : I2CBus) (accepted : ℤ)
    (h : g'.g_flag = g.g_flag) :
    (fmThreadIteration g' drv bus accepted).isSome
      = (fmThreadIteration g drv bus accepted).isSome := by
  unfold fmThreadIteration
  rw [h]
  generalize g.g_flag = fl
  cases fl <;> rfl

theorem backButtonPress_frame (sem : FloatSem) (g : Globals) :
    (backButtonPress sem g).g_flag = g.g_flag ∧
    (backButtonPress sem g).g_audio = g.g_audio ∧
    (backButtonPress sem g).g_lcd_update = g.g_lcd_update ∧
    (backButtonPress sem g).g_digit = g.g_digit := by
  unfold backButtonPress
  split_ifs <;> exact ⟨rfl, rfl, rfl, rfl⟩

theorem forwardButtonPress_frame (sem : FloatSem) (g : Globals) :
    (forwardButtonPress sem g).g_flag = g.g_flag ∧
    (forwardButtonPress sem g).g_audio = g.g_audio ∧
    (forwardButtonPress sem g).g_lcd_update = g.g_lcd_update ∧
    (forwardButtonPress sem g).g_digit = g.g_digit := by
  unfold forwardButtonPress
  split_ifs <;> exact ⟨rfl, rfl, rfl, rfl⟩

/-- Claim C20.  A completed press of the digit-select, decrease or increase button leaves
`g_flag`, `g_audio` and `g_lcd_update` unchanged, so the dispatcher has a pass to make after the
press exactly when it had one before; digit-select also leaves `g_frequency` unchanged and turns
`g_digit` 0 into 1 and 1 into 0, so two presses restore it; decrease and increase leave `g_digit`
unchanged. -/
theorem staging_never_reaches_dispatcher (sem : FloatSem) (g : Globals) (drv : Driver)
    (bus : I2CBus) (accepted : ℤ) (hd : g.g_digit = 0 ∨ g.g_digit = 1) :
    ((toggleDigitButtonPress g).g_flag = g.g_flag ∧
      (toggleDigitButtonPress g).g_audio = g.g_audio ∧
      (toggleDigitButtonPress g).g_lcd_update = g.g_lcd_update ∧
      (toggleDigitButtonPress g).g_frequency = g.g_frequency ∧
      (toggleDigitButtonPress g).g_digit = 1 - g.g_digit ∧
      toggleDigitButtonPress (toggleDigitButtonPress g) = g ∧
      (fmThreadIteration (toggleDigitButtonPress g) drv bus accepted).isSome
        = (fmThreadIteration g drv bus accepted).isSome) ∧
    ((backButtonPress sem g).g_flag = g.g_flag ∧
      (backButtonPress sem g).g_audio = g.g_audio ∧
      (backButtonPress sem g).g_lcd_update = g.g_lcd_update ∧
      (backButtonPress sem g).g_digit = g.g_digit ∧
      (fmThreadIteration (backButtonPress sem g) drv bus accepted).isSome
        = (fmThreadIteration g drv bus accepted).isSome) ∧
    ((forwardButtonPress sem g).g_flag = g.g_flag ∧
      (forwardButtonPress sem g).g_audio = g.g_audio ∧
      (forwardButtonPress sem g).g_lcd_update = g.g_lcd_update ∧
      (forwardButtonPress sem g).g_digit = g.g_digit ∧
      (fmThreadIteration (forwardButtonPress sem g) drv bus accepted).isSome
        = (fmThreadIteration g drv bus accepted).isSome) := by
  obtain ⟨b1, b2, b3, b4⟩ := backButtonPress_frame sem g
  obtain ⟨f1, f2, f3, f4⟩ := forwardButtonPress_frame sem g
  refine ⟨⟨rfl, rfl, rfl, rfl, ?_, ?_, fmThreadIteration_isSome g _ drv bus accepted rfl⟩,
    ⟨b1, b2, b3, b4, fmThreadIteration_isSome g _ drv bus accepted b1⟩,
    ⟨f1, f2, f3, f4, fmThreadIteration_isSome g _ drv bus accepted f1⟩⟩
  · rcases hd with h | h <;> simp [toggleDigitButtonPress, h]
  · obtain ⟨fr, au, fl, lc, dg⟩ := g
    simp only at hd
    rcases hd with h | h <;> subst h <;> rfl

/-- Witness for `staging_never_reaches_dispatcher`: the initial state, where the tenths digit is
active and no command is pending. -/
theorem staging_never_reaches_dispatcher_witness :
    ((Globals.init ieee).g_digit = 0 ∨ (Globals.init ieee).g_digit = 1) ∧
    (toggleDigitButtonPress (Globals.init ieee)).g_digit = 1 ∧
    toggleDigitButtonPress (toggleDigitButtonPress (Globals.init ieee)) = Globals.init ieee ∧
    (forwardButtonPress ieee (Globals.init ieee)).g_flag = Flag.WAIT ∧
    (fmThreadIteration (forwardButtonPress ieee (Globals.init ieee)) deviceAfterInit.2.1
      deviceAfterInit.2.2 5).isSome = false :=
  have h0 : (Globals.init ieee).g_digit = 0 ∨ (Globals.init ieee).g_digit = 1 := Or.inl rfl
  have h := staging_never_reaches_dispatcher ieee (Globals.init ieee) deviceAfterInit.2.1
    deviceAfterInit.2.2 5 h0
  ⟨h0, h.1.2.2.2.2.1, h.1.2.2.2.2.2.1, h.2.2.1, h.2.2.2.2.2.2⟩

/-! ## Thread priorities and locks -/

/-- Claim C21 (what the code does where the claim fails).  All seven threads are configured for
`SCHED_FIFO`; the attribute of every button thread carries `HIGHER_PRIO = 20`, the attribute of
the dispatcher and of the display thread carries `LOWER_PRIO = 50`: the priority configured for
the button threads is the numerically smaller one, not the greater. -/
theorem button_priority_below_dispatcher (b : Button) :
    (Thread.button_thread b).attr.schedpolicy = SchedPolicy.SCHED_FIFO ∧
    Thread.fm_thread.attr.schedpolicy = SchedPolicy.SCHED_FIFO ∧
    Thread.display_thread.attr.schedpolicy = SchedPolicy.SCHED_FIFO ∧
    (Thread.button_thread b).attr.sched_priority = 20 ∧
    Thread.fm_thread.attr.sched_priority = 50 ∧
    Thread.display_thread.attr.sched_priority = 50 ∧
    (Thread.button_thread b).attr.sched_priority < Thread.fm_thread.attr.sched_priority ∧
    (Thread.button_thread b).attr.sched_priority < Thread.display_thread.attr.sched_priority ∧
    ¬ (Thread.fm_thread.attr.sched_priority < (Thread.button_thread b).attr.sched_priority) := by
  refine ⟨rfl, rfl, rfl, rfl, rfl, rfl, ?_, ?_, ?_⟩ <;>
    simp [Thread.attr, hAttr, lAttr, HIGHER_PRIO, LOWER_PRIO]

/-- The locks and the order of events in a pass of the dispatcher loop. -/
theorem fmThreadIteration_trace (g : Globals) (drv : Driver) (bus : I2CBus) (accepted : ℤ)
    (h : g.g_flag = Flag.TUNE ∨ g.g_flag = Flag.AUDIO) :
    ∃ d : Dispatch, fmThreadIteration g drv bus accepted = some d ∧
      d.trace = [.lock .flag_mutex, .lock (stateMutex g.g_flag), .deviceCall,
        .unlock (stateMutex g.g_flag), .clearFlag, .unlock .flag_mutex,
        .lock .lcd_update_mutex, .setLcdUpdate, .unlock .lcd_update_mutex, .signalDisplay] := by
  unfold fmThreadIteration
  rcases h with h | h <;> rw [h] <;> exact ⟨_, rfl, rfl⟩

/-- Claim C22 (counterexample).  In the pass that handles the tune command pressed from the
initial state, the dispatcher holds `freq_mutex` and `flag_mutex` when it calls the driver, and
`g_flag` is cleared only after the call. -/
theorem device_call_under_locks :
    Option.map (fun d => heldAtDeviceCall d.trace)
      (fmThreadIteration (tuneButtonPress (Globals.init ieee)) deviceAfterInit.2.1
        deviceAfterInit.2.2 5)
      = some (some [Mutex.freq_mutex, Mutex.flag_mutex]) ∧
    Option.map (fun d => heldAtDeviceCall d.trace)
      (fmThreadIteration (tuneButtonPress (Globals.init ieee)) deviceAfterInit.2.1
        deviceAfterInit.2.2 5)
      ≠ some (some []) ∧
    Option.map (fun d => decide (d.trace.indexOf ThreadEvent.deviceCall
        < d.trace.indexOf ThreadEvent.clearFlag))
      (fmThreadIteration (tuneButtonPress (Globals.init ieee)) deviceAfterInit.2.1
        deviceAfterInit.2.2 5)
      = some true := by
  refine ⟨by decide!, by decide!, by decide!⟩

/-- Claim C22 (amended).  In every pass of the dispatcher loop the driver call, and with it the
transport write, is made while the dispatcher holds `flag_mutex` and the state mutex of the
command (`freq_mutex` for `TUNE`, `audio_mutex` for `AUDIO`) and no other mutex; the state mutex
is released after the call, then `g_flag` is cleared, then `flag_mutex` is released; at the end
of the pass no mutex is held. -/
theorem device_call_holds_state_lock (g : Globals) (drv : Driver) (bus : I2CBus) (accepted : ℤ)
    (h : g.g_flag = Flag.TUNE ∨ g.g_flag = Flag.AUDIO) :
    ∃ d : Dispatch, fmThreadIteration g drv bus accepted = some d ∧
      heldAtDeviceCall d.trace = some [stateMutex g.g_flag, Mutex.flag_mutex] ∧
      d.trace.indexOf ThreadEvent.deviceCall
        < d.trace.indexOf (ThreadEvent.unlock (stateMutex g.g_flag)) ∧
      d.trace.indexOf (ThreadEvent.unlock (stateMutex g.g_flag))
        < d.trace.indexOf ThreadEvent.clearFlag ∧
      d.trace.indexOf ThreadEvent.clearFlag
        < d.trace.indexOf (ThreadEvent.unlock Mutex.flag_mutex) ∧
      heldAfter [] d.trace = [] := by
  obtain ⟨d, hd, ht⟩ := fmThreadIteration_trace g drv bus accepted h
  refine ⟨d, hd, ?_⟩
  rw [ht]
  rcases h with h | h <;> rw [h] <;> decide

/-- Witness for `device_call_holds_state_lock`: the audio command after one press of the audio
button. -/
theorem device_call_holds_state_lock_witness :
    (audioButtonPress (Globals.init ieee)).g_flag = Flag.AUDIO ∧
    ∃ d : Dispatch, fmThreadIteration (audioButtonPress (Globals.init ieee)) deviceAfterInit.2.1
        deviceAfterInit.2.2 5 = some d ∧
      heldAtDeviceCall d.trace = some [Mutex.audio_mutex, Mutex.flag_mutex] ∧
      heldAfter [] d.trace = [] :=
  have h := device_call_holds_state_lock (audioButtonPress (Globals.init ieee))
    deviceAfterInit.2.1 deviceAfterInit.2.2 5 (Or.inr rfl)
  ⟨rfl, h.choose, h.choose_spec.1, h.choose_spec.2.1, h.choose_spec.2.2.2.2.2⟩

/-! ## Tuning while muted, failed writes, the range of the PLL word -/

theorem pll_high_byte_unmute (pll : ℕ) : ((pll >>> 8) &&& 0x3F) &&& 0x7F = (pll >>> 8) &&& 0x3F := by
  rw [Nat.and_assoc]
  have : (0x3F : ℕ) &&& 0x7F = 0x3F := by decide
  rw [this]

theorem or_mute_mask_bit7 : ∀ x < 256, (x ||| 0x80) &&& 0x80 = 0x80 := by decide!

/-- Claim C23 (what the code does where the claim fails).  For every `f`, after `TEA5767_Mute();
TEA5767_SetFrequency(f); TEA5767_Unmute()` from the initial driver state, all writes accepted and
all calls returning `0`, the image is `(PLL >> 8) & 0x3F`, `(PLL & 0xFF) | 0x80`, `10 10 40`: bit 7
of byte 1 stays set, while the never-muted image has `PLL & 0xFF` there.  For 95.0 MHz the image
is `2D E8 10 10 40`, which reads as the word 11752 instead of 11624. -/
theorem unmute_leaves_mute_mask_in_pll (f : ℚ) :
    (muteTuneUnmute f).1.1 = 0 ∧ (muteTuneUnmute f).2.1.1 = 0 ∧ (muteTuneUnmute f).2.2.1 = 0 ∧
    (muteTuneUnmute f).2.2.2.1.mute_state = 0 ∧
    (muteTuneUnmute f).2.2.2.1.writeBuffer
      = [(getFrequency 32768 f >>> 8) &&& 0x3F, (getFrequency 32768 f &&& 0xFF) ||| 0x80,
         0x10, 0x10, 0x40] ∧
    (TEA5767_SetFrequency Driver.init ⟨true, []⟩ 5 f).2.1.writeBuffer
      = [(getFrequency 32768 f >>> 8) &&& 0x3F, getFrequency 32768 f &&& 0xFF,
         0x10, 0x10, 0x40] ∧
    (muteTuneUnmute f).2.2.2.1.writeBuffer.getD 1 0 &&& 0x80 = 0x80 ∧
    (muteTuneUnmute (f32 (f64 95.0))).2.2.2.1.writeBuffer = [0x2D, 0xE8, 0x10, 0x10, 0x40] ∧
    (TEA5767_SetFrequency Driver.init ⟨true, []⟩ 5 (f32 (f64 95.0))).2.1.writeBuffer
      = [0x2D, 0x68, 0x10, 0x10, 0x40] ∧
    imagePLL (muteTuneUnmute (f32 (f64 95.0))).2.2.2.1.writeBuffer = 11752 ∧
    getFrequency 32768 (f32 (f64 95.0)) = 11624 := by
  have hs2 : (TEA5767_SetFrequency (TEA5767_Mute Driver.init ⟨true, []⟩ 5).2.1
      (TEA5767_Mute Driver.init ⟨true, []⟩ 5).2.2 5 f).2.1.writeBuffer
      = [(getFrequency 32768 f >>> 8) &&& 0x3F, (getFrequency 32768 f &&& 0xFF) ||| 0x80,
         0x10, 0x10, 0x40] :=
    (setFrequency_buffer_muted (TEA5767_Mute Driver.init ⟨true, []⟩ 5).2.1
      (TEA5767_Mute Driver.init ⟨true, []⟩ 5).2.2 5 f (by decide) (by decide)).1
  have hfin : (muteTuneUnmute f).2.2.2.1.writeBuffer
      = [(getFrequency 32768 f >>> 8) &&& 0x3F, (getFrequency 32768 f &&& 0xFF) ||| 0x80,
         0x10, 0x10, 0x40] := by
    unfold muteTuneUnmute
    simp only [TEA5767_Unmute, hs2]
    simp [BYTE_1, UNMUTE_MASK, pll_high_byte_unmute]
  refine ⟨?_, ?_, ?_, ?_, hfin, ?_, ?_, by decide!, by decide!, by decide!, by decide!⟩
  · simp [muteTuneUnmute, TEA5767_Mute, I2C_WriteRegisters, sysWrite, toInt8, statusOf,
      BUFFER_SIZE]
  · simp [muteTuneUnmute, TEA5767_Mute, TEA5767_SetFrequency, I2C_WriteRegisters, sysWrite,
      toInt8, statusOf, BUFFER_SIZE]
  · simp [muteTuneUnmute, TEA5767_Mute, TEA5767_SetFrequency, TEA5767_Unmute,
      I2C_WriteRegisters, sysWrite, toInt8, statusOf, BUFFER_SIZE]
  · simp [muteTuneUnmute, TEA5767_Unmute]
  · have h := setFrequency_buffer Driver.init ⟨true, []⟩ 5 f rfl
    simpa [Driver.init] using h
  · rw [hfin]
    simpa using or_mute_mask_bit7 (getFrequency 32768 f &&& 0xFF)
      (lt_of_le_of_lt Nat.and_le_right (by norm_num))

/-- Claim C24 (what the code does where the claim fails).  With the `float` arithmetic of the
program, three tenths-decreases from the initial state reach the `float` nearest 94.4 and six
ones-decreases then reach the `float` nearest 88.4, which is 11586765/131072, above the `double`
88.4; the guard `g_frequency > 88.4` therefore lets a seventh ones-decrease through, to
11455693/131072, which is below 87.5. -/
theorem float_decrease_leaves_band :
    (runPresses ieee (lowEdgePresses 0) (Globals.init ieee)).g_frequency = f32 (f64 94.4) ∧
    (runPresses ieee (lowEdgePresses 0) (Globals.init ieee)).g_digit = 1 ∧
    (runPresses ieee (lowEdgePresses 6) (Globals.init ieee)).g_frequency = f32 (f64 88.4) ∧
    f32 (f64 88.4) = 11586765 / 131072 ∧
    f64 88.4 < f32 (f64 88.4) ∧
    (runPresses ieee (lowEdgePresses 7) (Globals.init ieee)).g_frequency = 11455693 / 131072 ∧
    (runPresses ieee (lowEdgePresses 7) (Globals.init ieee)).g_frequency
      ≠ (runPresses ieee (lowEdgePresses 6) (Globals.init ieee)).g_frequency ∧
    (runPresses ieee (lowEdgePresses 7) (Globals.init ieee)).g_frequency < 87.5 ∧
    displayFrequencyTenths (runPresses ieee (lowEdgePresses 7) (Globals.init ieee)) = 874 := by
  refine ⟨by decide!, by decide!, by decide!, by decide!, by decide!, by decide!, by decide!,
    by decide!, by decide!⟩

/-- Claim C7 (what the code does where the claim fails).  The state the program reaches for
88.4 MHz with the ones digit active (three tenths-decreases, a digit-select and six
ones-decreases from the initial state) holds the `float` nearest 88.4, 11586765/131072.  There
`f - 1.0` is below 87.5, so the frequency should be left as it is; but the guard
`g_frequency > 88.4` compares with the `double` 88.4, which is smaller, and a completed press of
the decrease button sets the frequency to 11455693/131072, below 87.5.  From exactly 87.5 the
press changes nothing, under either digit. -/
theorem decrease_not_clamped_at_float_edge :
    runPresses ieee (lowEdgePresses 6) (Globals.init ieee)
      = { Globals.init ieee with g_frequency := f32 (f64 88.4), g_digit := 1 } ∧
    f32 (f64 88.4) = 11586765 / 131072 ∧
    displayFrequencyTenths { Globals.init ieee with g_frequency := f32 (f64 88.4), g_digit := 1 }
      = 884 ∧
    f32 (f64 88.4) - specStep 1 < 87.5 ∧
    (88.4 : ℚ) - specStep 1 < 87.5 ∧
    (backButtonPress ieee
      { Globals.init ieee with g_frequency := f32 (f64 88.4), g_digit := 1 }).g_frequency
        = 11455693 / 131072 ∧
    (backButtonPress ieee
      { Globals.init ieee with g_frequency := f32 (f64 88.4), g_digit := 1 }).g_frequency
        ≠ f32 (f64 88.4) ∧
    (backButtonPress ieee
      { Globals.init ieee with g_frequency := f32 (f64 88.4), g_digit := 1 }).g_frequency
        < 87.5 ∧
    backButtonPress ieee { Globals.init ieee with g_frequency := 87.5, g_digit := 1 }
      = { Globals.init ieee with g_frequency := 87.5, g_digit := 1 } ∧
    backButtonPress ieee { Globals.init ieee with g_frequency := 87.5, g_digit := 0 }
      = { Globals.init ieee with g_frequency := 87.5, g_digit := 0 } := by
  refine ⟨by decide!, by decide!, by decide!, by decide!, by decide!, by decide!, by decide!,
    by decide!, by decide!, by decide!⟩

/-- Claim C25 (counterexample).  `TEA5767_Mute` on the initialised device with a write that fails
returns `-1`, yet `mute_state` has become 1 and byte 0 of the retained image has become `0xAD`,
while the last image the device accepted is `2D 47 10 10 40`. -/
theorem failed_mute_changes_state :
    (TEA5767_Mute deviceAfterInit.2.1 deviceAfterInit.2.2 (-1)).1 = -1 ∧
    deviceAfterInit.2.1.mute_state = 0 ∧
    (TEA5767_Mute deviceAfterInit.2.1 deviceAfterInit.2.2 (-1)).2.1.mute_state = 1 ∧
    deviceAfterInit.2.1.writeBuffer = [0x2D, 0x47, 0x10, 0x10, 0x40] ∧
    (TEA5767_Mute deviceAfterInit.2.1 deviceAfterInit.2.2 (-1)).2.1.writeBuffer
      = [0xAD, 0x47, 0x10, 0x10, 0x40] ∧
    (TEA5767_Mute deviceAfterInit.2.1 deviceAfterInit.2.2 (-1)).2.1 ≠ deviceAfterInit.2.1 := by
  refine ⟨by decide!, by decide!, by decide!, by decide!, by decide!, by decide!⟩

/-- Claim C25 (amended).  The driver variables after any of the five operations do not depend on
the result of the transport write: `writeBuffer`, `mute_state` and `standby_mode` are updated
before the write and keep the updated values when the write fails and the function returns
`-1`; in particular `mute_state` is 1 after `TEA5767_Mute`, 0 after `TEA5767_Unmute`, and
`standby_mode` is 1 after `TEA5767_StandbyON`, 0 after `TEA5767_StandbyOFF`, failed or not. -/
theorem driver_state_ignores_write_result (op : DriverOp) (drv : Driver) (bus bus' : I2CBus)
    (accepted accepted' : ℤ) :
    (op.run drv bus accepted).2.1 = (op.run drv bus' accepted').2.1 ∧
    (TEA5767_Mute drv bus accepted).2.1.mute_state = 1 ∧
    (TEA5767_Unmute drv bus accepted).2.1.mute_state = 0 ∧
    (TEA5767_StandbyON drv bus accepted).2.1.standby_mode = 1 ∧
    (TEA5767_StandbyOFF drv bus accepted).2.1.standby_mode = 0 := by
  refine ⟨?_, rfl, rfl, rfl, rfl⟩
  cases op <;> rfl

end FMRadio
